import Mathlib

/-!
Shallow embedding of the Cognition Vault ingestion/storage core
(src/electron/vault.ts, src/electron/importers/*, the migration engine)
and proofs about the claims of its specification.

External effects are modelled explicitly:
* the SQLite database and the artifacts directory are a pure `Vault` state;
* `crypto` SHA-256 is modelled by a structural encoding (the pipeline only
  uses it as a function of the bytes);
* `AdmZip` parsing and `JSON.parse` are modelled as pre-parsed views handed
  to the pipeline (`ImportFile.zipParse`, `EntryData`), exactly as the code
  receives them from the libraries;
* wall-clock columns (`started_at`, `completed_at`, `imported_at`) are
  outside the model — no claim mentions them.
-/

namespace CV

/-! ### String helpers translated from node:path and JS idioms -/

/-- node path.basename with win32 semantics: last path component after
splitting on both separators, ignoring trailing separators. Implemented on
character lists (backslashes normalized to slashes, trailing separators
dropped, then the final separator-free component taken). -/
def basename (s : String) : String :=
  let cs := s.toList.map (fun c => if c = '\\' then '/' else c)
  let cs := cs.reverse.dropWhile (fun c => c = '/')
  String.mk ((cs.takeWhile (fun c => c ≠ '/')).reverse)

/-- JS String.prototype.trim (whitespace stripped from both ends). -/
def jsTrim (s : String) : String :=
  String.mk (((s.toList.dropWhile Char.isWhitespace).reverse.dropWhile
    Char.isWhitespace).reverse)

/-- JS String.prototype.toLowerCase. -/
def lowerStr (s : String) : String := String.mk (s.toList.map Char.toLower)

/-- JS String.prototype.endsWith. -/
def endsWithStr (s suffix : String) : Bool := suffix.toList.isSuffixOf s.toList

/-- Is `p` a prefix of `s`? -/
def isPrefixOfStr (p s : String) : Bool := p.toList.isPrefixOf s.toList

/-- node path.extname followed by .slice(1), with the JS `|| 'bin'` default:
`path.extname(entryName).slice(1) || 'bin'` in importFileHeadless. -/
def extnameSlice1OrBin (s : String) : String :=
  let b := basename s
  let cs := b.toList
  -- extname: substring from the last '.' of the basename, unless that dot is
  -- the first character (dotfiles have no extension in node)
  let rec lastDotFrom (l : List Char) (i : Nat) (acc : Option Nat) : Option Nat :=
    match l with
    | [] => acc
    | c :: rest => lastDotFrom rest (i + 1) (if c = '.' then some i else acc)
  match lastDotFrom cs 0 none with
  | none => "bin"
  | some 0 => "bin"
  | some i =>
      let ext := String.mk (cs.drop (i + 1))   -- extname minus the dot (.slice(1))
      if ext = "" then "bin" else ext

/-- JS `x || dflt` for an optional string field (absent and empty are falsy). -/
def jsOrStr (o : Option String) (dflt : String) : String :=
  match o with
  | some s => if s = "" then dflt else s
  | none => dflt

/-- JS `x || null` for an optional string field. -/
def jsOrNullStr (o : Option String) : Option String :=
  match o with
  | some s => if s = "" then none else some s
  | none => none

/-- JS `a || b || c || ... || dflt` over optional strings. -/
def jsOrChainStr (l : List (Option String)) (dflt : String) : String :=
  match l with
  | [] => dflt
  | o :: rest => match o with
    | some s => if s = "" then jsOrChainStr rest dflt else s
    | none => jsOrChainStr rest dflt

/-- First present value of a chain of optional (already ISO-parsed) timestamps:
models `msg.created_at || msg.timestamp || msg.time` (the raw values are
non-empty date strings, so presence is truthiness). -/
def jsOrChainInt (l : List (Option Int)) : Option Int :=
  match l with
  | [] => none
  | some v :: _ => some v
  | none :: rest => jsOrChainInt rest

/-- The backtick character (code 96), written numerically. -/
def backtickChar : Char := Char.ofNat 96

/-- `content.replace(/[#*`]/g, '').trim()` — plain-text normalization used by
the JSON importers. -/
def normalizeMd (s : String) : String :=
  jsTrim (String.mk (s.toList.filter (fun c => !(c = '#' || c = '*' || c = backtickChar))))

/-- One step state for the HTML tag stripper: `inTag = true` while inside
`<...`. Models `content.replace(/<[^>]*>?/gm, '')`. -/
def stripTagsAux : Bool → List Char → List Char
  | _, [] => []
  | true, c :: rest => if c = '>' then stripTagsAux false rest else stripTagsAux true rest
  | false, c :: rest => if c = '<' then stripTagsAux true rest else c :: stripTagsAux false rest

/-- `content.replace(/<[^>]*>?/gm, '')` — the HTML fallback's tag stripper. -/
def stripHtmlTags (s : String) : String := String.mk (stripTagsAux false s.toList)

/-- Substring test on character lists (JS String.prototype.includes). -/
def listContains (h n : List Char) : Bool :=
  match h with
  | [] => n.isEmpty
  | _ :: rest => if n.isPrefixOf h then true else listContains rest n

/-- JS `haystack.includes(needle)`. -/
def strIncludes (h n : String) : Bool := listContains h.toList n.toList

/-! ### Provider export shapes (the output of JSON.parse on well-formed
provider exports, per the field accesses the importers perform) -/

/-- ChatGPT `message.content`. -/
structure CgContent where
  content_type : String
  parts : List String
deriving DecidableEq

/-- ChatGPT `node.message`: `author.role`, `content`, `create_time` (float
seconds, modelled as a rational). -/
structure CgMessage where
  authorRole : String
  content : Option CgContent
  create_time : Option ℚ
deriving DecidableEq

/-- ChatGPT mapping node: `{message, parent}`. -/
structure CgNode where
  message : Option CgMessage
  parent : Option String
deriving DecidableEq

/-- ChatGPT conversation object; `mapping` keeps Object.entries order. -/
structure CgThread where
  id : Option String
  title : Option String
  create_time : Option ℚ
  mapping : Option (List (String × CgNode))
deriving DecidableEq

/-- Claude `chat_messages[i]`; `created_at` is modelled as the already
ISO-parsed epoch-millisecond value of `new Date(x).getTime()`. -/
structure ClMessage where
  uuid : Option String
  sender : Option String
  text : Option String
  created_at : Option Int
deriving DecidableEq

/-- Claude conversation object. -/
structure ClThread where
  uuid : Option String
  name : Option String
  created_at : Option Int
  chat_messages : Option (List ClMessage)
deriving DecidableEq

/-- Gemini message (union of possible content / author / time keys). -/
structure GmMessage where
  content : Option String
  text : Option String
  prompt_text : Option String
  response_text : Option String
  author : Option String
  sender : Option String
  role : Option String
  created_at : Option Int
  timestamp : Option Int
  time : Option Int
deriving DecidableEq

/-- Gemini conversation object. -/
structure GmThread where
  title : Option String
  conversations : Option (List GmMessage)
  messages : Option (List GmMessage)
deriving DecidableEq

/-- The message-regex / author-regex / content-regex matches inside one
`<div class="message">` block of chat.html. -/
structure HtmlBlock where
  author : Option String
  content : Option String
deriving DecidableEq

/-- The regex view of a chat.html document: the `<title>` capture and the
list of `<div class="message">` block matches, in document order. -/
structure HtmlExport where
  title : Option String
  blocks : List HtmlBlock
deriving DecidableEq

/-- A file's byte content, carried together with its parse views: the
pipeline stores the raw bytes and the importers consume the result of
`JSON.parse` / the HTML regex scan on those same bytes. -/
inductive EntryData
  /-- bytes that are not valid JSON (JSON.parse throws on them) -/
  | binary (bytes : List Nat)
  /-- valid JSON whose root is not an array -/
  | jsonNonArray
  /-- a JSON array of ChatGPT conversation objects -/
  | chatgptArr (ts : List CgThread)
  /-- a JSON array of Claude conversation objects -/
  | claudeArr (ts : List ClThread)
  /-- a JSON array of Gemini conversation objects -/
  | geminiArr (ts : List GmThread)
  /-- an HTML document (not valid JSON), as seen by the fallback's regexes -/
  | htmlDoc (d : HtmlExport)
deriving DecidableEq

/-! ### Modelled crypto: a structural stand-in for SHA-256 -/

def encNatList (l : List Nat) : String := String.intercalate "," (l.map toString)
def encStr (s : String) : String := "'" ++ s ++ "'"
def encOptStr (o : Option String) : String :=
  match o with | none => "~" | some s => encStr s
def encOptInt (o : Option Int) : String :=
  match o with | none => "~" | some v => toString v
def encOptQ (o : Option ℚ) : String :=
  match o with | none => "~" | some q => toString q.num ++ "/" ++ toString q.den
def encList (f : α → String) (l : List α) : String :=
  "[" ++ String.intercalate ";" (l.map f) ++ "]"

def encCgThread (t : CgThread) : String :=
  encOptStr t.id ++ encOptStr t.title ++ encOptQ t.create_time ++
    (match t.mapping with
     | none => "~"
     | some es => encList (fun e =>
         encStr e.1 ++
           (match e.2.message with
            | none => "~"
            | some m => m.authorRole ++
                (match m.content with
                 | none => "~"
                 | some c => encStr c.content_type ++ encList encStr c.parts) ++
                encOptQ m.create_time) ++
           encOptStr e.2.parent) es)

def encClThread (t : ClThread) : String :=
  encOptStr t.uuid ++ encOptStr t.name ++ encOptInt t.created_at ++
    (match t.chat_messages with
     | none => "~"
     | some ms => encList (fun m =>
         encOptStr m.uuid ++ encOptStr m.sender ++ encOptStr m.text ++ encOptInt m.created_at) ms)

def encGmMessage (m : GmMessage) : String :=
  encOptStr m.content ++ encOptStr m.text ++ encOptStr m.prompt_text ++
    encOptStr m.response_text ++ encOptStr m.author ++ encOptStr m.sender ++
    encOptStr m.role ++ encOptInt m.created_at ++ encOptInt m.timestamp ++ encOptInt m.time

def encGmThread (t : GmThread) : String :=
  encOptStr t.title ++
    (match t.conversations with
     | none => "~" | some ms => encList encGmMessage ms) ++
    (match t.messages with
     | none => "~" | some ms => encList encGmMessage ms)

def encHtml (d : HtmlExport) : String :=
  encOptStr d.title ++ encList (fun b => encOptStr b.author ++ encOptStr b.content) d.blocks

/-- Structural encoding of a file content. -/
def encode : EntryData → String
  | .binary bs => "B" ++ encNatList bs
  | .jsonNonArray => "J"
  | .chatgptArr ts => "C" ++ encList encCgThread ts
  | .claudeArr ts => "L" ++ encList encClThread ts
  | .geminiArr ts => "G" ++ encList encGmThread ts
  | .htmlDoc d => "H" ++ encHtml d

/-- Modelled external function: `crypto.createHash('sha256').update(buffer)
.digest('hex')` on the file's bytes. Represented by a structural encoding;
the pipeline only relies on it being a function of the bytes. -/
def sha256 (d : EntryData) : String := encode d

/-- Modelled external function: the same SHA-256 hex digest applied to the
raw content string of a message (`content_hash` column). -/
def sha256Str (s : String) : String := "s:" ++ s

/-- Modelled `buffer.length` for the byte_size column. -/
def dataSize (d : EntryData) : Nat := (encode d).length

/-! ### The relational + disk state (the vault) -/

structure RunRow where
  id : Nat
  provider : String
  source_label : Option String
  status : String
  error_message : Option String
deriving DecidableEq

structure ArtifactRow where
  id : Nat
  ingestion_run_id : Nat
  parent_artifact_id : Option Nat
  provider : String
  artifact_type : String
  filename : String
  path_in_archive : Option String
  byte_size : Nat
  sha256 : String
  stored_path : String
deriving DecidableEq

structure ThreadRow where
  id : Nat
  provider : String
  provider_thread_id : Option String
  title : String
  created_at : Option Int
  raw_artifact_id : Nat
  ingestion_run_id : Nat
deriving DecidableEq

structure MessageRow where
  id : Nat
  thread_id : Nat
  provider : String
  provider_message_id : Option String
  role : String
  content : String
  content_plain : String
  timestamp : Option Int
  position : Nat
  parent_provider_message_id : Option String
  content_hash : String
  raw_artifact_id : Nat
  ingestion_run_id : Nat
deriving DecidableEq

/-- The database tables together with the artifacts directory contents
(`files` maps an absolute path to the bytes written there). -/
structure Vault where
  nextRunId : Nat := 1
  nextArtifactId : Nat := 1
  nextThreadId : Nat := 1
  nextMessageId : Nat := 1
  runs : List RunRow := []
  artifacts : List ArtifactRow := []
  threads : List ThreadRow := []
  messages : List MessageRow := []
  files : List (String × EntryData) := []
deriving DecidableEq

/-- `paths().artifactsDir`. -/
def artifactsDir : String := "/vault/artifacts"

/-- fs.writeFileSync: replace the content at the path, or create the file. -/
def writeFile (files : List (String × EntryData)) (p : String) (d : EntryData) :
    List (String × EntryData) :=
  if (files.find? (fun f => f.1 = p)).isSome then
    files.map (fun f => if f.1 = p then (p, d) else f)
  else files ++ [(p, d)]

/-! ### vault.ts: run lifecycle and the content-addressed artifact store -/

/-- createIngestionRun: INSERT a run with status 'running'. -/
def createIngestionRun (provider : String) (sourceLabel : Option String) (st : Vault) :
    RunRow × Vault :=
  let r : RunRow :=
    { id := st.nextRunId, provider := provider,
      source_label := jsOrNullStr sourceLabel, status := "running", error_message := none }
  (r, { st with nextRunId := st.nextRunId + 1, runs := st.runs ++ [r] })

/-- finalizeIngestionRun: UPDATE status and error_message of the run row. -/
def finalizeIngestionRun (runId : Nat) (status : String) (errMsg : Option String) (st : Vault) :
    Vault :=
  { st with runs := st.runs.map (fun r =>
      if r.id = runId then { r with status := status, error_message := errMsg } else r) }

structure StoreResult where
  id : Nat
  skipped : Bool
deriving DecidableEq

/-- The path a new artifact with these bytes and this filename is stored at. -/
def storedPathFor (buffer : EntryData) (filename : String) : String :=
  artifactsDir ++ "/" ++ (sha256 buffer ++ "-" ++ basename filename)

/-- storeRawArtifact (src/electron/vault.ts:38-74): SHA-256 dedup check,
basename sanitization, file write, row insert. -/
def storeRawArtifact (runId : Nat) (provider artifactType filename : String)
    (buffer : EntryData) (parent : Option Nat) (pathInArchive : Option String)
    (st : Vault) : StoreResult × Vault :=
  let sha := sha256 buffer
  match st.artifacts.find? (fun a => a.sha256 = sha) with
  | some existing => ({ id := existing.id, skipped := true }, st)
  | none =>
    let safeFilename := basename filename
    let storedPath := artifactsDir ++ "/" ++ (sha ++ "-" ++ safeFilename)
    let files' := writeFile st.files storedPath buffer
    let row : ArtifactRow :=
      { id := st.nextArtifactId, ingestion_run_id := runId, parent_artifact_id := parent,
        provider := provider, artifact_type := artifactType, filename := safeFilename,
        path_in_archive := pathInArchive, byte_size := dataSize buffer,
        sha256 := sha, stored_path := storedPath }
    ({ id := row.id, skipped := false },
     { st with nextArtifactId := st.nextArtifactId + 1,
               artifacts := st.artifacts ++ [row], files := files' })

/-- Outcome oracle for the filesystem calls wipeVault makes
(readdirSync can throw; each unlinkSync can throw). -/
structure FsOracle where
  readdirFails : Bool
  unlinkFails : String → Bool

/-- Is this path a direct child of the artifacts directory? Every write the
store performs has this shape. -/
def inArtifactsDir (p : String) : Bool := isPrefixOfStr (artifactsDir ++ "/") p

/-- wipeVault (src/electron/vault.ts:76-105). Returns (thrown error if any,
the DB statements executed in the transaction, the new state). Files whose
deletion succeeded are gone even when the call then throws. -/
def wipeVault (o : FsOracle) (st : Vault) : Option String × List String × Vault :=
  if o.readdirFails then
    (some "Failed to read artifacts directory", [], st)
  else
    let dirFiles := st.files.filter (fun f => inArtifactsDir f.1)
    let failedFiles := dirFiles.filter (fun f => o.unlinkFails f.1)
    let remaining := st.files.filter (fun f => !(inArtifactsDir f.1) || o.unlinkFails f.1)
    let st' := { st with files := remaining }
    if failedFiles.isEmpty then
      (none,
       ["DELETE FROM messages", "DELETE FROM threads",
        "DELETE FROM raw_artifacts", "DELETE FROM ingestion_runs"],
       { st' with messages := [], threads := [], artifacts := [], runs := [] })
    else
      (some "Vault wipe partially failed", [], st')

/-! ### Importer errors (the throw sites of the importers and the pipeline) -/

inductive ImpError
  /-- `new AdmZip(buffer)` threw -/
  | zipCorrupt
  /-- entry count above MAX_ENTRIES -/
  | tooManyEntries
  /-- one declared uncompressed size above MAX_SINGLE_FILE_SIZE -/
  | entryTooLarge
  /-- declared uncompressed/compressed above the ratio bound -/
  | ratioExceeded
  /-- running total of declared uncompressed sizes above MAX_TOTAL_UNCOMPRESSED_SIZE -/
  | totalTooLarge
  /-- JSON.parse threw in the named provider's importer -/
  | parseJsonFailed (provider : String)
  /-- valid JSON but not an array: the provider importer's format check threw -/
  | invalidFormat (provider : String)
deriving DecidableEq

/-- The message attached to each throw site (abbreviated from the source's
user-facing strings; the pipeline stores it in `error_message`). -/
def errMessage : ImpError → String
  | .zipCorrupt => "Invalid or unsupported zip format"
  | .tooManyEntries => "Import blocked: this export contains too many files"
  | .entryTooLarge => "Import blocked: one file in this export is larger than 100MB"
  | .ratioExceeded => "Import blocked: one file in this export has an extreme compression ratio"
  | .totalTooLarge => "Import blocked: total uncompressed size exceeds 1GB limit"
  | .parseJsonFailed p => "Failed to parse " ++ p ++ " JSON content"
  | .invalidFormat p => "Invalid " ++ p ++ " export format: expected array"

/-! ### Row insertion helpers shared by the importers -/

/-- INSERT INTO threads, returning the new thread id (lastInsertRowid). -/
def insertThread (st : Vault) (provider : String) (ptid : Option String) (title : String)
    (createdAt : Option Int) (aid runId : Nat) : Nat × Vault :=
  let row : ThreadRow :=
    { id := st.nextThreadId, provider := provider, provider_thread_id := ptid,
      title := title, created_at := createdAt, raw_artifact_id := aid,
      ingestion_run_id := runId }
  (row.id, { st with nextThreadId := st.nextThreadId + 1, threads := st.threads ++ [row] })

/-- INSERT INTO messages. -/
def insertMessage (st : Vault) (row : MessageRow) : Vault :=
  { st with nextMessageId := st.nextMessageId + 1,
            messages := st.messages ++ [{ row with id := st.nextMessageId }] }

/-! ### Claude importer (src/electron/importers/claude.ts) -/

/-- One iteration of the claude chat_messages loop. -/
def clStep (runId aid tid : Nat) (acc : Vault × Nat) (m : ClMessage) : Vault × Nat :=
  let st := acc.1
  let pos := acc.2
  let content := m.text.getD ""                       -- msg.text || ''
  let contentPlain := normalizeMd content
  let row : MessageRow :=
    { id := 0, thread_id := tid, provider := "claude",
      provider_message_id := jsOrNullStr m.uuid,       -- msg.uuid || null
      role := jsOrStr m.sender "unknown",              -- msg.sender || 'unknown'
      content := content, content_plain := contentPlain,
      timestamp := m.created_at, position := pos,
      parent_provider_message_id := none,
      content_hash := sha256Str content, raw_artifact_id := aid,
      ingestion_run_id := runId }
  (insertMessage st row, pos + 1)

/-- One iteration of the claude conversation loop. -/
def insertClThread (runId aid : Nat) (st : Vault) (t : ClThread) : Vault :=
  let r := insertThread st "claude" (jsOrNullStr t.uuid)
      (jsOrStr t.name "Untitled Conversation") t.created_at aid runId
  match t.chat_messages with
  | none => r.2
  | some msgs => (msgs.foldl (clStep runId aid r.1) (r.2, 0)).1

/-- A provider-shaped JSON array iterated by an importer that finds none of
its own fields on the objects: every field access yields undefined, so the
loop inserts one untitled thread per element and no messages. -/
def insertForeignThreads (provider title : String) (runId aid : Nat) (st : Vault) (n : Nat) :
    Vault :=
  match n with
  | 0 => st
  | n + 1 =>
    insertForeignThreads provider title runId aid
      (insertThread st provider none title none aid runId).2 n

/-- importClaude: JSON.parse, array check, then one transaction inserting a
thread per conversation and its chat_messages in order. A thrown error
leaves the vault unchanged (the transaction rolls back). -/
def importClaude (runId aid : Nat) (d : EntryData) (st : Vault) : Except ImpError Vault :=
  match d with
  | .binary _ => .error (.parseJsonFailed "claude")
  | .htmlDoc _ => .error (.parseJsonFailed "claude")
  | .jsonNonArray => .error (.invalidFormat "claude")
  | .claudeArr ts => .ok (ts.foldl (insertClThread runId aid) st)
  | .chatgptArr ts => .ok (insertForeignThreads "claude" "Untitled Conversation" runId aid st ts.length)
  | .geminiArr ts => .ok (insertForeignThreads "claude" "Untitled Conversation" runId aid st ts.length)

/-! ### ChatGPT JSON importer (importers/chatgpt.ts, importChatGPT) -/

/-- `x ? Math.floor(x * 1000) : null` on a float create_time: absent and 0
are falsy. -/
def jsTsQ (o : Option ℚ) : Option Int :=
  match o with
  | none => none
  | some v => if v = 0 then none else some ⌊1000 * v⌋

/-- One iteration of the mapping loop: skip nodes without a message, without
content, or whose content_type is not "text"; otherwise insert a row. -/
def cgStep (runId aid tid : Nat) (acc : Vault × Nat) (e : String × CgNode) : Vault × Nat :=
  let st := acc.1
  let pos := acc.2
  match e.2.message with
  | none => (st, pos)
  | some m =>
    match m.content with
    | none => (st, pos)
    | some c =>
      if c.content_type = "text" then
        let content := String.intercalate "\n" c.parts
        let contentPlain := normalizeMd content
        let row : MessageRow :=
          { id := 0, thread_id := tid, provider := "chatgpt",
            provider_message_id := some e.1, role := m.authorRole,
            content := content, content_plain := contentPlain,
            timestamp := jsTsQ m.create_time, position := pos,
            parent_provider_message_id := jsOrNullStr e.2.parent,
            content_hash := sha256Str content, raw_artifact_id := aid,
            ingestion_run_id := runId }
        (insertMessage st row, pos + 1)
      else (st, pos)

/-- One iteration of the conversation loop. -/
def insertCgThread (runId aid : Nat) (st : Vault) (t : CgThread) : Vault :=
  let r := insertThread st "chatgpt" (jsOrNullStr t.id)
      (jsOrStr t.title "Untitled Conversation") (jsTsQ t.create_time) aid runId
  match t.mapping with
  | none => r.2
  | some entries => (entries.foldl (cgStep runId aid r.1) (r.2, 0)).1

/-- importChatGPT (importers/chatgpt.ts:4-69). -/
def importChatGPT (runId aid : Nat) (d : EntryData) (st : Vault) : Except ImpError Vault :=
  match d with
  | .binary _ => .error (.parseJsonFailed "chatgpt")
  | .htmlDoc _ => .error (.parseJsonFailed "chatgpt")
  | .jsonNonArray => .error (.invalidFormat "chatgpt")
  | .chatgptArr ts => .ok (ts.foldl (insertCgThread runId aid) st)
  | .claudeArr ts => .ok (insertForeignThreads "chatgpt" "Untitled Conversation" runId aid st ts.length)
  | .geminiArr ts => .ok (insertForeignThreads "chatgpt" "Untitled Conversation" runId aid st ts.length)

/-! ### ChatGPT HTML fallback (importers/chatgpt.ts, importChatGPTfromHTML) -/

/-- One iteration over the `<div class="message">` regex matches: only blocks
whose content regex matched produce a row. -/
def htmlStep (runId aid tid : Nat) (acc : Vault × Nat) (b : HtmlBlock) : Vault × Nat :=
  let st := acc.1
  let pos := acc.2
  match b.content with
  | none => (st, pos)
  | some raw =>
    let role := match b.author with
      | some a => lowerStr a
      | none => "unknown"
    let content := jsTrim raw
    let contentPlain := jsTrim (stripHtmlTags content)
    let row : MessageRow :=
      { id := 0, thread_id := tid, provider := "chatgpt",
        provider_message_id := none, role := role,
        content := content, content_plain := contentPlain,
        timestamp := none, position := pos,
        parent_provider_message_id := none,
        content_hash := sha256Str content, raw_artifact_id := aid,
        ingestion_run_id := runId }
    (insertMessage st row, pos + 1)

/-- importChatGPTfromHTML (importers/chatgpt.ts:71-130): regex-scan the
document, always insert one thread, insert a row per matched block.
Content that is not an HTML document matches none of the regexes. -/
def importChatGPTfromHTML (runId aid : Nat) (d : EntryData) (st : Vault) :
    Except ImpError Vault :=
  let doc : HtmlExport := match d with
    | .htmlDoc h => h
    | _ => { title := none, blocks := [] }
  let title := doc.title.getD "Imported Conversation (HTML fallback)"
  let r := insertThread st "chatgpt" none title none aid runId
  .ok ((doc.blocks.foldl (htmlStep runId aid r.1) (r.2, 0)).1)

/-! ### Gemini importer (importers/gemini.ts) -/

/-- One iteration of the gemini message loop. -/
def gmStep (runId aid tid : Nat) (acc : Vault × Nat) (m : GmMessage) : Vault × Nat :=
  let st := acc.1
  let pos := acc.2
  -- msg.content || msg.text || msg.prompt_text || msg.response_text || ''
  let content := jsOrChainStr [m.content, m.text, m.prompt_text, m.response_text] ""
  if content = "" then (st, pos)
  else
    let contentPlain := normalizeMd content
    -- (msg.author || msg.sender || msg.role || 'unknown').toLowerCase()
    let roleStr := lowerStr (jsOrChainStr [m.author, m.sender, m.role] "unknown")
    let role :=
      if strIncludes roleStr "user" then "user"
      else if strIncludes roleStr "gemini" || strIncludes roleStr "assistant" ||
              strIncludes roleStr "model" || strIncludes roleStr "ai" then "assistant"
      else roleStr
    let ts := jsOrChainInt [m.created_at, m.timestamp, m.time]
    let row : MessageRow :=
      { id := 0, thread_id := tid, provider := "gemini",
        provider_message_id := none, role := role,
        content := content, content_plain := contentPlain,
        timestamp := ts, position := pos,
        parent_provider_message_id := none,
        content_hash := sha256Str content, raw_artifact_id := aid,
        ingestion_run_id := runId }
    (insertMessage st row, pos + 1)

/-- One iteration of the gemini conversation loop: threads with an empty
message list are skipped. -/
def insertGmThread (runId aid : Nat) (st : Vault) (t : GmThread) : Vault :=
  -- thread.conversations || thread.messages || [] (arrays are always truthy)
  let convs := match t.conversations with
    | some l => l
    | none => t.messages.getD []
  if convs.isEmpty then st
  else
    let r := insertThread st "gemini" none
        (jsOrStr t.title "Untitled Gemini Conversation") none aid runId
    (convs.foldl (gmStep runId aid r.1) (r.2, 0)).1

/-- importGemini (importers/gemini.ts:10-88). A chatgpt- or claude-shaped
array has neither `conversations` nor `messages` on its elements, so every
element is skipped. -/
def importGemini (runId aid : Nat) (d : EntryData) (st : Vault) : Except ImpError Vault :=
  match d with
  | .binary _ => .error (.parseJsonFailed "gemini")
  | .htmlDoc _ => .error (.parseJsonFailed "gemini")
  | .jsonNonArray => .error (.invalidFormat "gemini")
  | .geminiArr ts => .ok (ts.foldl (insertGmThread runId aid) st)
  | .chatgptArr _ => .ok st
  | .claudeArr _ => .ok st

/-! ### The ingest controller (importFileHeadless, src/electron/vault.ts) -/

/-- One archive entry, as AdmZip presents it: the entry name, the directory
flag, the central-directory declared sizes (`entry.header.size`,
`entry.header.compressedSize`) and the decompressed bytes (`entry.getData()`). -/
structure ZipEntry where
  entryName : String
  isDirectory : Bool
  size : Nat
  compressedSize : Nat
  data : EntryData
deriving DecidableEq

/-- The header metadata of an entry (everything the pre-scan may read). -/
structure ZipHeader where
  entryName : String
  isDirectory : Bool
  size : Nat
  compressedSize : Nat
deriving DecidableEq

def ZipEntry.header (e : ZipEntry) : ZipHeader :=
  { entryName := e.entryName, isDirectory := e.isDirectory,
    size := e.size, compressedSize := e.compressedSize }

instance exceptDecEq {ε α : Type} [DecidableEq ε] [DecidableEq α] :
    DecidableEq (Except ε α) := fun x y =>
  match x, y with
  | .error a, .error b =>
    if h : a = b then .isTrue (by rw [h]) else .isFalse (by simp [h])
  | .ok a, .ok b =>
    if h : a = b then .isTrue (by rw [h]) else .isFalse (by simp [h])
  | .error _, .ok _ => .isFalse (by simp)
  | .ok _, .error _ => .isFalse (by simp)

/-- An import's input file: its path basename, the raw bytes, and what
`new AdmZip(buffer).getEntries()` yields on those bytes (only consulted for
`.zip` filenames; `.error` models the AdmZip constructor throwing). -/
structure ImportFile where
  filename : String
  content : EntryData
  zipParse : Except String (List ZipEntry)
deriving DecidableEq

/-- The four ZIP-hardening limits (env-overridable in the source; these are
the defaults). -/
structure ZipLimits where
  maxEntries : Nat := 10000
  maxTotalUncompressedSize : Nat := 1024 * 1024 * 1024
  maxSingleFileSize : Nat := 100 * 1024 * 1024
  ratioMax : Nat := 100
deriving DecidableEq

def defaultLimits : ZipLimits := {}

/-- The per-entry checks of the pre-scan loop. `header.size || 0` is the
size field itself; `header.compressedSize || 1` replaces 0 by 1; the float
comparison `uncompressed / compressed > ratioMax` is the exact integer
comparison `uncompressed > ratioMax * compressed`. -/
def entryViolation (L : ZipLimits) (e : ZipEntry) : Option ImpError :=
  let uncompressedSize := e.size
  let compressedSize := if e.compressedSize = 0 then 1 else e.compressedSize
  if uncompressedSize > L.maxSingleFileSize then some .entryTooLarge
  else if uncompressedSize > L.ratioMax * compressedSize then some .ratioExceeded
  else none

/-- The pre-scan loop over the entries, accumulating the declared
uncompressed total. Reads only header metadata, never `data`. -/
def preScanLoop (L : ZipLimits) : List ZipEntry → Nat → Option ImpError
  | [], _ => none
  | e :: rest, total =>
    if e.isDirectory then preScanLoop L rest total
    else match entryViolation L e with
      | some err => some err
      | none =>
        let total' := total + e.size
        if total' > L.maxTotalUncompressedSize then some .totalTooLarge
        else preScanLoop L rest total'

/-- The entry-count check followed by the pre-scan loop
(src/electron/vault.ts:199-222). -/
def zipCheck (L : ZipLimits) (entries : List ZipEntry) : Option ImpError :=
  if entries.length > L.maxEntries then some .tooManyEntries
  else preScanLoop L entries 0

/-- Parser dispatch for one archive entry, by (provider, entry name). -/
def dispatchEntry (provider : String) (runId childAid : Nat) (entryName : String)
    (d : EntryData) (st : Vault) : Except ImpError Vault :=
  if provider = "chatgpt" then
    if entryName = "conversations.json" || endsWithStr entryName "/conversations.json" then
      importChatGPT runId childAid d st
    else if entryName = "chat.html" || endsWithStr entryName "/chat.html" then
      importChatGPTfromHTML runId childAid d st
    else .ok st
  else if provider = "claude" && endsWithStr entryName ".json" then
    importClaude runId childAid d st
  else if provider = "gemini" && endsWithStr entryName ".json" then
    importGemini runId childAid d st
  else .ok st

/-- The extraction loop (only entered once the pre-scan passed): store every
non-directory entry as a child artifact, then dispatch its parser. A thrown
error carries the state accumulated so far — child artifacts of this and
earlier entries, and rows committed by earlier entries' transactions,
survive the throw. -/
def extractLoop (provider : String) (runId parentAid : Nat) :
    List ZipEntry → Vault → Except (ImpError × Vault) Vault
  | [], st => .ok st
  | e :: rest, st =>
    if e.isDirectory then extractLoop provider runId parentAid rest st
    else
      let (child, st) := storeRawArtifact runId provider
          (extnameSlice1OrBin e.entryName) (basename e.entryName) e.data
          (some parentAid) (some e.entryName) st
      match dispatchEntry provider runId child.id e.entryName e.data st with
      | .error err => .error (err, st)
      | .ok st => extractLoop provider runId parentAid rest st

/-- Parser dispatch for a non-ZIP file. -/
def dispatchPlain (provider : String) (runId aid : Nat) (d : EntryData) (st : Vault) :
    Except ImpError Vault :=
  if provider = "chatgpt" then importChatGPT runId aid d st
  else if provider = "claude" then importClaude runId aid d st
  else if provider = "gemini" then importGemini runId aid d st
  else .ok st

/-- The body of the try block of importFileHeadless. -/
def importBody (provider : String) (file : ImportFile) (isZip : Bool) (L : ZipLimits)
    (runId parentAid : Nat) (st : Vault) : Except (ImpError × Vault) Vault :=
  if isZip then
    match file.zipParse with
    | .error _ => .error (.zipCorrupt, st)
    | .ok entries =>
      match zipCheck L entries with
      | some err => .error (err, st)
      | none => extractLoop provider runId parentAid entries st
  else
    match dispatchPlain provider runId parentAid file.content st with
    | .error err => .error (err, st)
    | .ok st => .ok st

structure ImportOk where
  runId : Nat
  artifactId : Nat
deriving DecidableEq

/-- importFileHeadless (src/electron/vault.ts:180-271): read file, open a
run, store the parent artifact, run the try block, finalize the run as
'complete' or 'failed' and re-raise. -/
def importFileHeadless (L : ZipLimits) (provider : String) (file : ImportFile)
    (st : Vault) : Except ImpError ImportOk × Vault :=
  let filename := basename file.filename
  let isZip := endsWithStr (lowerStr filename) ".zip"
  let rs := createIngestionRun provider (some ("Import: " ++ filename)) st
  let ps := storeRawArtifact rs.1.id provider
      (if isZip then "zip" else "json") filename file.content none none rs.2
  match importBody provider file isZip L rs.1.id ps.1.id ps.2 with
  | .ok st' =>
    (.ok { runId := rs.1.id, artifactId := ps.1.id },
     finalizeIngestionRun rs.1.id "complete" none st')
  | .error (err, st') =>
    (.error err, finalizeIngestionRun rs.1.id "failed" (some (errMessage err)) st')

/-! ### The schema migrator (migrations.ts)

A separate, coarser database model: what the migration scripts and the FTS
DDL touch — table existence, the `schema_meta` key/value row for
`schema_version`, the FTS objects, the user-version pragma, and per-table
row counts. Trigger/table creation is `CREATE ... IF NOT EXISTS`
throughout, modelled as idempotent set-to-present updates. -/

structure MigDb where
  hasSchemaMeta : Bool
  /-- value of the `schema_version` row when present (meaningful only when
  `hasSchemaMeta`) -/
  schemaVersionKey : Option Nat
  /-- count of other rows of schema_meta -/
  otherMetaRows : Nat
  hasIngestionRuns : Bool
  hasRawArtifacts : Bool
  hasThreads : Bool
  hasMessages : Bool
  hasFtsTable : Bool
  hasTriggerAi : Bool
  hasTriggerAd : Bool
  hasTriggerAu : Bool
  userVersion : Nat
  runsRows : Nat
  artifactsRows : Nat
  threadsRows : Nat
  messagesRows : Nat
deriving DecidableEq

/-- readSchemaVersion: 0 when the schema_meta table is absent or the key
row is missing, else the stored integer. -/
def readSchemaVersion (db : MigDb) : Nat :=
  if db.hasSchemaMeta then db.schemaVersionKey.getD 0 else 0

/-- writeSchemaVersion: INSERT OR REPLACE of the `schema_version` row. -/
def writeSchemaVersion (v : Nat) (db : MigDb) : MigDb :=
  { db with schemaVersionKey := some v }

/-- A migration: its version and the effect of executing its DDL script. -/
structure Mig where
  version : Nat
  run : MigDb → MigDb

/-- CREATE TABLE IF NOT EXISTS schema_meta (a freshly created table has no
rows; an existing one is untouched). -/
def ensureSchemaMeta (db : MigDb) : MigDb :=
  if db.hasSchemaMeta then db else
    { db with hasSchemaMeta := true, schemaVersionKey := none, otherMetaRows := 0 }

/-- CREATE TABLE IF NOT EXISTS ingestion_runs. -/
def ensureIngestionRuns (db : MigDb) : MigDb :=
  if db.hasIngestionRuns then db else { db with hasIngestionRuns := true, runsRows := 0 }

/-- CREATE TABLE IF NOT EXISTS raw_artifacts. -/
def ensureRawArtifacts (db : MigDb) : MigDb :=
  if db.hasRawArtifacts then db else { db with hasRawArtifacts := true, artifactsRows := 0 }

/-- CREATE TABLE IF NOT EXISTS threads. -/
def ensureThreads (db : MigDb) : MigDb :=
  if db.hasThreads then db else { db with hasThreads := true, threadsRows := 0 }

/-- CREATE TABLE IF NOT EXISTS messages. -/
def ensureMessages (db : MigDb) : MigDb :=
  if db.hasMessages then db else { db with hasMessages := true, messagesRows := 0 }

/-- The v1 script: CREATE TABLE IF NOT EXISTS for schema_meta,
ingestion_runs, raw_artifacts, threads, messages, in script order. -/
def migration1Run (db : MigDb) : MigDb :=
  ensureMessages (ensureThreads (ensureRawArtifacts (ensureIngestionRuns (ensureSchemaMeta db))))

/-- The production migration list and target version. -/
def prodMigrations : List Mig := [{ version := 1, run := migration1Run }]

def LATEST_SCHEMA_VERSION : Nat := 1

/-- Stable insertion into a version-ascending list. -/
def insertAsc (m : Mig) : List Mig → List Mig
  | [] => [m]
  | x :: xs => if m.version < x.version then m :: x :: xs else x :: insertAsc m xs

/-- `.sort((a, b) => a.version - b.version)`. -/
def sortByVersion : List Mig → List Mig
  | [] => []
  | x :: xs => insertAsc x (sortByVersion xs)

/-- The pending selection of migrate: versions strictly above the current
version and at most the target, in ascending order. -/
def pendingOf (list : List Mig) (target : Nat) (db : MigDb) : List Mig :=
  sortByVersion (list.filter (fun m =>
    decide (readSchemaVersion db < m.version) && decide (m.version ≤ target)))

/-- The FTS DDL: CREATE VIRTUAL TABLE IF NOT EXISTS plus the three
CREATE TRIGGER IF NOT EXISTS statements. Touches no rows. -/
def ftsDdl (db : MigDb) : MigDb :=
  { db with hasFtsTable := true, hasTriggerAi := true,
            hasTriggerAd := true, hasTriggerAu := true }

/-- migrate (migrations.ts:141-168) over an explicit migration list and
target version: select pending, apply each (script then version upsert) in
its own transaction, re-assert the FTS objects, mirror the user-version
pragma. -/
def migrateWith (list : List Mig) (target : Nat) (db : MigDb) : MigDb :=
  let pending := pendingOf list target db
  let db := pending.foldl (fun d m => writeSchemaVersion m.version (m.run d)) db
  let db := ftsDdl db
  { db with userVersion := readSchemaVersion db }

/-- `migrate(db)` as db.ts calls it: production list, latest version. -/
def migrate (db : MigDb) : MigDb := migrateWith prodMigrations LATEST_SCHEMA_VERSION db

/-! ## Shared lemmas -/

theorem find?_append_none {α : Type} {p : α → Bool} {l₁ l₂ : List α}
    (h : l₁.find? p = none) : (l₁ ++ l₂).find? p = l₂.find? p := by
  induction l₁ with
  | nil => simp
  | cons a l ih =>
    cases hp : p a with
    | true => rw [List.find?_cons_of_pos _ hp] at h; exact absurd h (by simp)
    | false =>
      rw [List.find?_cons_of_neg _ (by simp [hp])] at h
      rw [List.cons_append, List.find?_cons_of_neg _ (by simp [hp])]
      exact ih h

theorem filter_of_find?_none {α : Type} {p : α → Bool} {l : List α}
    (h : l.find? p = none) : l.filter p = [] := by
  rw [List.filter_eq_nil_iff]
  intro a ha
  have := List.find?_eq_none.mp h a ha
  simpa using this

/-- storeRawArtifact never touches runs, threads or messages, and never
changes the run counter. -/
theorem store_frame (runId : Nat) (prov ty fn : String) (buf : EntryData)
    (p : Option Nat) (pa : Option String) (st : Vault) :
    (storeRawArtifact runId prov ty fn buf p pa st).2.runs = st.runs ∧
    (storeRawArtifact runId prov ty fn buf p pa st).2.threads = st.threads ∧
    (storeRawArtifact runId prov ty fn buf p pa st).2.messages = st.messages ∧
    (storeRawArtifact runId prov ty fn buf p pa st).2.nextRunId = st.nextRunId := by
  simp only [storeRawArtifact]
  split <;> simp

/-- Everything a storeRawArtifact call can add: the artifact row it may
insert carries the requested parent and the buffer's hash; the file it may
write is at the computed path with the buffer's bytes. -/
theorem store_additions (runId : Nat) (prov ty fn : String) (buf : EntryData)
    (p : Option Nat) (pa : Option String) (st : Vault) :
    (∀ a ∈ (storeRawArtifact runId prov ty fn buf p pa st).2.artifacts,
       a ∈ st.artifacts ∨ (a.parent_artifact_id = p ∧ a.sha256 = sha256 buf)) ∧
    (∀ f ∈ (storeRawArtifact runId prov ty fn buf p pa st).2.files,
       f ∈ st.files ∨ (f.1 = storedPathFor buf fn ∧ f.2 = buf)) := by
  simp only [storeRawArtifact]
  split
  · exact ⟨fun a ha => Or.inl ha, fun f hf => Or.inl hf⟩
  · simp only [storedPathFor, writeFile]
    constructor
    · intro a ha
      simp only [List.mem_append, List.mem_singleton] at ha
      rcases ha with ha | ha
      · exact Or.inl ha
      · subst ha; exact Or.inr ⟨rfl, rfl⟩
    · intro f hf
      by_cases hex : (st.files.find? (fun g =>
          g.1 = artifactsDir ++ "/" ++ (sha256 buf ++ "-" ++ basename fn))).isSome
      · simp only [hex, if_true, List.mem_map] at hf
        obtain ⟨g, hg, hfg⟩ := hf
        by_cases hgp : g.1 = artifactsDir ++ "/" ++ (sha256 buf ++ "-" ++ basename fn)
        · simp only [hgp, if_true] at hfg
          exact Or.inr ⟨by rw [← hfg], by rw [← hfg]⟩
        · simp only [hgp, if_false] at hfg
          exact Or.inl (hfg ▸ hg)
      · simp only [Bool.not_eq_true] at hex
        simp only [hex, Bool.false_eq_true, if_false, List.mem_append,
          List.mem_singleton] at hf
        rcases hf with hf | hf
        · exact Or.inl hf
        · subst hf; exact Or.inr ⟨rfl, rfl⟩

/-- createIngestionRun appends exactly the fresh 'running' run row. -/
theorem createRun_spec (prov : String) (lbl : Option String) (st : Vault) :
    (createIngestionRun prov lbl st).1.id = st.nextRunId ∧
    (createIngestionRun prov lbl st).1.status = "running" ∧
    (createIngestionRun prov lbl st).2.runs
      = st.runs ++ [(createIngestionRun prov lbl st).1] ∧
    (createIngestionRun prov lbl st).2.threads = st.threads ∧
    (createIngestionRun prov lbl st).2.messages = st.messages ∧
    (createIngestionRun prov lbl st).2.artifacts = st.artifacts ∧
    (createIngestionRun prov lbl st).2.files = st.files := by
  unfold createIngestionRun; simp

/-- finalizeIngestionRun only rewrites run rows. -/
theorem finalize_frame (runId : Nat) (status : String) (e : Option String) (st : Vault) :
    (finalizeIngestionRun runId status e st).threads = st.threads ∧
    (finalizeIngestionRun runId status e st).messages = st.messages ∧
    (finalizeIngestionRun runId status e st).artifacts = st.artifacts ∧
    (finalizeIngestionRun runId status e st).files = st.files := by
  unfold finalizeIngestionRun; simp

/-! ## C3 — storeRawArtifact dedup / idempotence on byte content -/

/-- The row a non-deduplicated storeRawArtifact call inserts. -/
def newRowFor (runId : Nat) (prov ty fn : String) (buf : EntryData)
    (p : Option Nat) (pa : Option String) (st : Vault) : ArtifactRow :=
  { id := st.nextArtifactId, ingestion_run_id := runId, parent_artifact_id := p,
    provider := prov, artifact_type := ty, filename := basename fn,
    path_in_archive := pa, byte_size := dataSize buf, sha256 := sha256 buf,
    stored_path := storedPathFor buf fn }

/-- C3: storeRawArtifact is idempotent on byte content. Starting from a
state with no row for the buffer's SHA-256 and no file at its would-be
path, the first call inserts exactly one row and writes exactly one file
and returns `skipped = false` with the fresh id; a second call with
byte-identical bytes (any metadata) returns the same id with
`skipped = true` and changes nothing, leaving exactly one row with that
SHA-256 and exactly one file at that path. -/
theorem storeRawArtifact_idempotent
    (st : Vault) (runId runId2 : Nat) (prov ty fn prov2 ty2 fn2 : String)
    (buf : EntryData) (p p2 : Option Nat) (pa pa2 : Option String)
    (hrow : st.artifacts.find? (fun a => a.sha256 = sha256 buf) = none)
    (hfile : st.files.find? (fun f => f.1 = storedPathFor buf fn) = none) :
    (storeRawArtifact runId prov ty fn buf p pa st).1
        = { id := st.nextArtifactId, skipped := false } ∧
    (storeRawArtifact runId prov ty fn buf p pa st).2.artifacts.length
        = st.artifacts.length + 1 ∧
    (storeRawArtifact runId prov ty fn buf p pa st).2.files.length
        = st.files.length + 1 ∧
    (storeRawArtifact runId2 prov2 ty2 fn2 buf p2 pa2
        (storeRawArtifact runId prov ty fn buf p pa st).2).1
        = { id := st.nextArtifactId, skipped := true } ∧
    (storeRawArtifact runId2 prov2 ty2 fn2 buf p2 pa2
        (storeRawArtifact runId prov ty fn buf p pa st).2).2
        = (storeRawArtifact runId prov ty fn buf p pa st).2 ∧
    ((storeRawArtifact runId prov ty fn buf p pa st).2.artifacts.filter
        (fun a => a.sha256 = sha256 buf)).length = 1 ∧
    ((storeRawArtifact runId prov ty fn buf p pa st).2.files.filter
        (fun f => f.1 = storedPathFor buf fn)).length = 1 := by
  have hfile' : (st.files.find? (fun f =>
      f.1 = artifactsDir ++ "/" ++ (sha256 buf ++ "-" ++ basename fn))).isSome = false := by
    rw [show (artifactsDir ++ "/" ++ (sha256 buf ++ "-" ++ basename fn))
        = storedPathFor buf fn from rfl]
    rw [hfile]; rfl
  have h1 : storeRawArtifact runId prov ty fn buf p pa st
      = ({ id := st.nextArtifactId, skipped := false },
         { st with nextArtifactId := st.nextArtifactId + 1,
                   artifacts := st.artifacts ++ [newRowFor runId prov ty fn buf p pa st],
                   files := st.files ++ [(storedPathFor buf fn, buf)] }) := by
    simp only [storeRawArtifact, writeFile, storedPathFor, newRowFor]
    rw [hrow, hfile']
    simp
  have hrowcell : ([newRowFor runId prov ty fn buf p pa st].find?
      (fun a => a.sha256 = sha256 buf)) = some (newRowFor runId prov ty fn buf p pa st) := by
    simp [List.find?, newRowFor]
  refine ⟨by rw [h1], by rw [h1]; simp, by rw [h1]; simp, ?_, ?_, ?_, ?_⟩
  · rw [h1]
    simp only [storeRawArtifact]
    rw [find?_append_none hrow, hrowcell]
    simp [newRowFor]
  · rw [h1]
    simp only [storeRawArtifact]
    rw [find?_append_none hrow, hrowcell]
  · rw [h1]
    simp only [List.filter_append, filter_of_find?_none hrow]
    simp [newRowFor]
  · rw [h1]
    simp only [List.filter_append, filter_of_find?_none hfile]
    simp

/-- Closed witness for C3 at a concrete buffer and the empty vault. -/
theorem storeRawArtifact_idempotent_witness :
    (({} : Vault).artifacts.find? (fun a => a.sha256 = sha256 (.binary [5])) = none) ∧
    (({} : Vault).files.find? (fun f => f.1 = storedPathFor (.binary [5]) "x.json") = none) ∧
    (storeRawArtifact 1 "chatgpt" "json" "x.json" (.binary [5]) none none {}).1
        = { id := 1, skipped := false } ∧
    (storeRawArtifact 2 "claude" "bin" "other.bin" (.binary [5]) (some 9) (some "a/b")
        (storeRawArtifact 1 "chatgpt" "json" "x.json" (.binary [5]) none none {}).2).1
        = { id := 1, skipped := true } ∧
    (storeRawArtifact 2 "claude" "bin" "other.bin" (.binary [5]) (some 9) (some "a/b")
        (storeRawArtifact 1 "chatgpt" "json" "x.json" (.binary [5]) none none {}).2).2
        = (storeRawArtifact 1 "chatgpt" "json" "x.json" (.binary [5]) none none {}).2 ∧
    ((storeRawArtifact 1 "chatgpt" "json" "x.json" (.binary [5]) none none {}).2.artifacts.filter
        (fun a => a.sha256 = sha256 (.binary [5]))).length = 1 ∧
    ((storeRawArtifact 1 "chatgpt" "json" "x.json" (.binary [5]) none none {}).2.files.filter
        (fun f => f.1 = storedPathFor (.binary [5]) "x.json")).length = 1 := by
  have h := storeRawArtifact_idempotent {} 1 2 "chatgpt" "json" "x.json"
    "claude" "bin" "other.bin" (.binary [5]) none (some 9) none (some "a/b")
    rfl rfl
  exact ⟨rfl, rfl, h.1, h.2.2.2.1, h.2.2.2.2.1, h.2.2.2.2.2.1, h.2.2.2.2.2.2⟩

/-! ## C9 — a stale row (file missing) is returned as-is, not re-written -/

/-- C9 counterexample fixtures: a vault whose raw_artifacts table has a row
for these bytes but whose artifacts directory is empty. -/
def c9buf : EntryData := .binary [1, 2, 3]

def c9row : ArtifactRow :=
  { id := 7, ingestion_run_id := 1, parent_artifact_id := none, provider := "chatgpt",
    artifact_type := "json", filename := "x.json", path_in_archive := none,
    byte_size := dataSize c9buf, sha256 := sha256 c9buf,
    stored_path := storedPathFor c9buf "x.json" }

def c9st : Vault :=
  { nextRunId := 2, nextArtifactId := 8, nextThreadId := 1, nextMessageId := 1,
    runs := [], artifacts := [c9row], threads := [], messages := [], files := [] }

/-- C9 counterexample: the bytes' SHA-256 has a row but the file at its
stored_path is missing; storeRawArtifact returns the stale row's id with
`skipped = true` and leaves the filesystem untouched — the missing file is
NOT re-written, contradicting the claim. -/
theorem storeRawArtifact_stale_row_counterexample :
    storeRawArtifact 1 "chatgpt" "json" "x.json" c9buf none none c9st
        = ({ id := 7, skipped := true }, c9st) ∧
    c9st.files.find? (fun f => f.1 = c9row.stored_path) = none ∧
    ((storeRawArtifact 1 "chatgpt" "json" "x.json" c9buf none none c9st).2.files.find?
        (fun f => f.1 = c9row.stored_path)) = none := by
  refine ⟨?_, rfl, ?_⟩ <;> decide

/-- C9 amended: if a row with the buffer's SHA-256 exists, storeRawArtifact
returns that row's id with `skipped = true` and performs no write at all —
whether or not the file at the row's stored_path still exists. -/
theorem storeRawArtifact_stale_row_returns_existing
    (runId : Nat) (prov ty fn : String) (buf : EntryData) (p : Option Nat)
    (pa : Option String) (st : Vault) (row : ArtifactRow)
    (h : st.artifacts.find? (fun a => a.sha256 = sha256 buf) = some row) :
    storeRawArtifact runId prov ty fn buf p pa st = ({ id := row.id, skipped := true }, st) := by
  simp only [storeRawArtifact]
  rw [h]

/-- Closed witness for the amended C9 at the counterexample state. -/
theorem storeRawArtifact_stale_row_returns_existing_witness :
    (c9st.artifacts.find? (fun a => a.sha256 = sha256 c9buf) = some c9row) ∧
    storeRawArtifact 3 "claude" "bin" "y.bin" c9buf (some 1) none c9st
        = ({ id := 7, skipped := true }, c9st) :=
  ⟨by decide, storeRawArtifact_stale_row_returns_existing 3 "claude" "bin" "y.bin" c9buf
    (some 1) none c9st c9row (by decide)⟩

/-! ## C8 — the HTML fallback does not raise HTML_NO_MESSAGES -/

/-- C8 (code bug): on a chat.html document in which no
`<div class="message">` block matches, importChatGPTfromHTML completes
successfully — it inserts the fallback thread, inserts zero messages and
raises no error, where the spec requires an HTML_NO_MESSAGES failure. -/
theorem importChatGPTfromHTML_silent_on_no_blocks :
    (importChatGPTfromHTML 1 1 (.htmlDoc { title := none, blocks := [] }) {}).map
        (fun st => (st.messages.length, st.threads.map (fun t => t.title)))
      = .ok (0, ["Imported Conversation (HTML fallback)"]) := by
  decide

/-! ## C1 — no path-traversal pre-scan in importFileHeadless -/

/-- A ZIP whose single entry's raw header name is `../outside.txt`. -/
def zipSlipFile : ImportFile :=
  { filename := "zip_slip.zip", content := .binary [80, 75],
    zipParse := .ok [
      { entryName := "../outside.txt", isDirectory := false, size := 16,
        compressedSize := 16, data := .binary [122, 105, 112] }] }

/-- C1 (code bug): importFileHeadless runs no path-traversal check at all.
On a chatgpt import of a ZIP whose raw entry name is `../outside.txt` the
pre-scan passes, the entry is extracted and stored as a child artifact
(basename-sanitized, inside the artifacts directory), and the run is
finalized as 'complete' — the spec instead requires the pre-scan to fail
with ZIP_SLIP_DETECTED and the run to be 'failed'. (The containment part
of the claim does hold: every file written lies in the artifacts
directory, because storeRawArtifact keeps only the basename.) -/
theorem importFileHeadless_no_zip_slip_check :
    (importFileHeadless defaultLimits "chatgpt" zipSlipFile {}).1
        = .ok { runId := 1, artifactId := 1 } ∧
    ((importFileHeadless defaultLimits "chatgpt" zipSlipFile {}).2.runs.map
        (fun r => r.status)) = ["complete"] ∧
    ((importFileHeadless defaultLimits "chatgpt" zipSlipFile {}).2.artifacts.map
        (fun a => (a.filename, a.path_in_archive, a.parent_artifact_id)))
      = [("zip_slip.zip", none, none), ("outside.txt", some "../outside.txt", some 1)] ∧
    (((importFileHeadless defaultLimits "chatgpt" zipSlipFile {}).2.files.map
        Prod.fst).all inArtifactsDir) = true := by
  refine ⟨?_, ?_, ?_, ?_⟩ <;> decide

/-! ## C5 — wipeVault is two-phase -/

/-- wipeVault on the success path: no filesystem error, all four DELETEs. -/
theorem wipeVault_ok_eq (o : FsOracle) (st : Vault)
    (hrd : o.readdirFails = false)
    (hem : ((st.files.filter (fun f => inArtifactsDir f.1)).filter
        (fun f => o.unlinkFails f.1)).isEmpty = true) :
    wipeVault o st = (none, ["DELETE FROM messages", "DELETE FROM threads",
        "DELETE FROM raw_artifacts", "DELETE FROM ingestion_runs"],
      { st with files := st.files.filter (fun f => !(inArtifactsDir f.1) || o.unlinkFails f.1),
                messages := [], threads := [], artifacts := [], runs := [] }) := by
  simp [wipeVault, hrd, hem]
  intro a b hab hul
  by_contra hin
  rw [Bool.not_eq_false] at hin
  rw [List.isEmpty_iff, List.filter_eq_nil_iff] at hem
  exact hem (a, b) (List.mem_filter.mpr ⟨hab, by simpa using hin⟩) (by simpa using hul)

/-- wipeVault on the unlink-failure path: throws, no DB statement. -/
theorem wipeVault_err_eq (o : FsOracle) (st : Vault)
    (hrd : o.readdirFails = false)
    (hem : ((st.files.filter (fun f => inArtifactsDir f.1)).filter
        (fun f => o.unlinkFails f.1)).isEmpty = false) :
    wipeVault o st = (some "Vault wipe partially failed", [],
      { st with files := st.files.filter (fun f => !(inArtifactsDir f.1) || o.unlinkFails f.1) }) := by
  simp [wipeVault, hrd, hem]
  rw [List.isEmpty_eq_false_iff_exists_mem] at hem
  obtain ⟨f, hf⟩ := hem
  rw [List.mem_filter] at hf
  obtain ⟨hf1, hul⟩ := hf
  rw [List.mem_filter] at hf1
  obtain ⟨hmem, hin⟩ := hf1
  exact ⟨f.1, ⟨f.2, by simpa using hmem⟩, by simpa using hul, by simpa using hin⟩

/-- C5: wipeVault is two-phase. If reading the artifacts directory fails or
any file deletion fails, it throws having executed no database statement,
and every table is unchanged. If every deletion succeeds, it executes
exactly the four DELETE statements — messages, threads, raw_artifacts,
ingestion_runs, in that order — inside the one transaction, emptying every
table. -/
theorem wipeVault_two_phase (o : FsOracle) (st : Vault) :
    ((o.readdirFails = true ∨
        ∃ f ∈ st.files, inArtifactsDir f.1 = true ∧ o.unlinkFails f.1 = true) →
      (wipeVault o st).1.isSome = true ∧
      (wipeVault o st).2.1 = [] ∧
      (wipeVault o st).2.2.messages = st.messages ∧
      (wipeVault o st).2.2.threads = st.threads ∧
      (wipeVault o st).2.2.artifacts = st.artifacts ∧
      (wipeVault o st).2.2.runs = st.runs) ∧
    ((o.readdirFails = false ∧
        ∀ f ∈ st.files, inArtifactsDir f.1 = true → o.unlinkFails f.1 = false) →
      (wipeVault o st).1 = none ∧
      (wipeVault o st).2.1 = ["DELETE FROM messages", "DELETE FROM threads",
        "DELETE FROM raw_artifacts", "DELETE FROM ingestion_runs"] ∧
      (wipeVault o st).2.2.messages = [] ∧
      (wipeVault o st).2.2.threads = [] ∧
      (wipeVault o st).2.2.artifacts = [] ∧
      (wipeVault o st).2.2.runs = []) := by
  constructor
  · rintro (hrd | ⟨f, hf, hin, hul⟩)
    · simp [wipeVault, hrd]
    · cases hrd : o.readdirFails with
      | true => simp [wipeVault, hrd]
      | false =>
        have hem : ((st.files.filter (fun f => inArtifactsDir f.1)).filter
            (fun f => o.unlinkFails f.1)).isEmpty = false := by
          rw [List.isEmpty_eq_false_iff_exists_mem]
          exact ⟨f, List.mem_filter.mpr ⟨List.mem_filter.mpr ⟨hf, hin⟩, hul⟩⟩
        rw [wipeVault_err_eq o st hrd hem]
        exact ⟨rfl, rfl, rfl, rfl, rfl, rfl⟩
  · rintro ⟨hrd, hok⟩
    have hem : ((st.files.filter (fun f => inArtifactsDir f.1)).filter
        (fun f => o.unlinkFails f.1)).isEmpty = true := by
      rw [List.isEmpty_iff, List.filter_eq_nil_iff]
      intro f hf
      rw [List.mem_filter] at hf
      have := hok f hf.1 hf.2
      simp [this]
    rw [wipeVault_ok_eq o st hrd hem]
    exact ⟨rfl, rfl, rfl, rfl, rfl, rfl⟩

/-- Fixture for the C5 witness: a vault whose one artifact file refuses to
be deleted. -/
def c5st : Vault :=
  { nextRunId := 2, nextArtifactId := 8, nextThreadId := 1, nextMessageId := 1,
    runs := [], artifacts := [c9row], threads := [], messages := [],
    files := [(storedPathFor (.binary [5]) "x.json", .binary [5])] }

def c5badOracle : FsOracle :=
  { readdirFails := false, unlinkFails := fun p => p = storedPathFor (.binary [5]) "x.json" }

def c5goodOracle : FsOracle := { readdirFails := false, unlinkFails := fun _ => false }

/-- Closed witness for C5: both phases exercised on concrete vaults. -/
theorem wipeVault_two_phase_witness :
    ((wipeVault c5badOracle c5st).1.isSome = true ∧
      (wipeVault c5badOracle c5st).2.1 = [] ∧
      (wipeVault c5badOracle c5st).2.2.messages = c5st.messages ∧
      (wipeVault c5badOracle c5st).2.2.threads = c5st.threads ∧
      (wipeVault c5badOracle c5st).2.2.artifacts = c5st.artifacts ∧
      (wipeVault c5badOracle c5st).2.2.runs = c5st.runs) ∧
    ((wipeVault c5goodOracle c9st).1 = none ∧
      (wipeVault c5goodOracle c9st).2.1 = ["DELETE FROM messages", "DELETE FROM threads",
        "DELETE FROM raw_artifacts", "DELETE FROM ingestion_runs"] ∧
      (wipeVault c5goodOracle c9st).2.2.messages = [] ∧
      (wipeVault c5goodOracle c9st).2.2.threads = [] ∧
      (wipeVault c5goodOracle c9st).2.2.artifacts = [] ∧
      (wipeVault c5goodOracle c9st).2.2.runs = []) :=
  ⟨(wipeVault_two_phase c5badOracle c5st).1
      (Or.inr ⟨(storedPathFor (.binary [5]) "x.json", .binary [5]), by decide⟩),
   (wipeVault_two_phase c5goodOracle c9st).2 ⟨rfl, fun _ _ _ => rfl⟩⟩

/-! ## C6 — migrate is idempotent -/

theorem mem_insertAsc {m x : Mig} {l : List Mig} :
    x ∈ insertAsc m l ↔ x = m ∨ x ∈ l := by
  induction l with
  | nil => simp [insertAsc]
  | cons a rest ih =>
    unfold insertAsc
    by_cases h : m.version < a.version
    · simp [h]
    · simp [h, ih]
      tauto

theorem mem_sortByVersion {x : Mig} {l : List Mig} :
    x ∈ sortByVersion l ↔ x ∈ l := by
  induction l with
  | nil => simp [sortByVersion]
  | cons a rest ih =>
    unfold sortByVersion
    rw [mem_insertAsc, ih]
    simp

/-- A pending migration always has version strictly above the current
schema version and at most the target. -/
theorem pendingOf_selects (list : List Mig) (target : Nat) (db : MigDb) :
    ∀ m ∈ pendingOf list target db,
      readSchemaVersion db < m.version ∧ m.version ≤ target := by
  intro m hm
  unfold pendingOf at hm
  rw [mem_sortByVersion] at hm
  rw [List.mem_filter] at hm
  have := hm.2
  simp at this
  exact this

theorem migration1Run_hasSchemaMeta (db : MigDb) :
    (migration1Run db).hasSchemaMeta = true := by
  unfold migration1Run ensureMessages ensureThreads ensureRawArtifacts ensureIngestionRuns
    ensureSchemaMeta
  split <;> split <;> split <;> split <;> split <;> simp_all

theorem readSchemaVersion_ftsDdl (d : MigDb) :
    readSchemaVersion (ftsDdl d) = readSchemaVersion d := rfl

theorem readSchemaVersion_set_userVersion (d : MigDb) (v : Nat) :
    readSchemaVersion { d with userVersion := v } = readSchemaVersion d := rfl

/-- The production pending selection: the single v1 migration when the
schema version is still 0, nothing otherwise. -/
theorem pendingOf_prod (db : MigDb) :
    pendingOf prodMigrations LATEST_SCHEMA_VERSION db
      = if readSchemaVersion db < 1 then prodMigrations else [] := by
  unfold pendingOf prodMigrations LATEST_SCHEMA_VERSION
  by_cases h : readSchemaVersion db < 1
  · rw [if_pos h]
    have h0 : decide (readSchemaVersion db = 0) = true := by
      simpa [Nat.lt_one_iff] using h
    simp [List.filter, h0, sortByVersion, insertAsc]
  · rw [if_neg h]
    have h0 : decide (readSchemaVersion db = 0) = false := by
      simpa [Nat.lt_one_iff] using h
    simp [List.filter, h0, sortByVersion]

theorem readSchemaVersion_migrate (db : MigDb) :
    readSchemaVersion (migrate db) = if readSchemaVersion db < 1 then 1
      else readSchemaVersion db := by
  unfold migrate migrateWith
  rw [pendingOf_prod]
  by_cases h : readSchemaVersion db < 1
  · rw [if_pos h, if_pos h]
    simp only [prodMigrations, List.foldl_cons, List.foldl_nil]
    rw [readSchemaVersion_set_userVersion, readSchemaVersion_ftsDdl]
    simp only [writeSchemaVersion, readSchemaVersion]
    rw [migration1Run_hasSchemaMeta]
    simp
  · rw [if_neg h, if_neg h]
    simp only [List.foldl_nil]
    rw [readSchemaVersion_set_userVersion, readSchemaVersion_ftsDdl]

theorem ftsDdl_fixed (d : MigDb) (h1 : d.hasFtsTable = true) (h2 : d.hasTriggerAi = true)
    (h3 : d.hasTriggerAd = true) (h4 : d.hasTriggerAu = true) : ftsDdl d = d := by
  cases d
  simp_all [ftsDdl]

/-- C6: migrate is idempotent. Immediately after a run of `migrate` the
pending selection (versions strictly above the current schema version and
at most the target) is empty, so a second run applies zero migrations and
leaves the entire database state — schema_version key, user-version
pragma, and every table's rows — unchanged; and the selection rule is
exactly as the claim states it. -/
theorem migrate_idempotent (db : MigDb) :
    migrate (migrate db) = migrate db ∧
    pendingOf prodMigrations LATEST_SCHEMA_VERSION (migrate db) = [] ∧
    (∀ (list : List Mig) (target : Nat) (db' : MigDb),
      ∀ m ∈ pendingOf list target db',
        readSchemaVersion db' < m.version ∧ m.version ≤ target) := by
  have hread : readSchemaVersion (migrate db) = if readSchemaVersion db < 1 then 1
      else readSchemaVersion db := readSchemaVersion_migrate db
  have hge : 1 ≤ readSchemaVersion (migrate db) := by
    rw [hread]
    by_cases h : readSchemaVersion db < 1
    · simp [h]
    · simp [h]; omega
  have hpend : pendingOf prodMigrations LATEST_SCHEMA_VERSION (migrate db) = [] := by
    unfold pendingOf prodMigrations LATEST_SCHEMA_VERSION
    have : decide (readSchemaVersion (migrate db) < 1) = false := by
      simp; omega
    simp only [List.filter, this, Bool.false_and, sortByVersion]
  refine ⟨?_, hpend, pendingOf_selects⟩
  have hfts : (migrate db).hasFtsTable = true ∧ (migrate db).hasTriggerAi = true ∧
      (migrate db).hasTriggerAd = true ∧ (migrate db).hasTriggerAu = true := by
    unfold migrate migrateWith
    exact ⟨rfl, rfl, rfl, rfl⟩
  have huv : (migrate db).userVersion = readSchemaVersion (migrate db) := by
    conv_rhs => rw [show migrate db = migrateWith prodMigrations LATEST_SCHEMA_VERSION db from rfl]
    unfold migrateWith
    rfl
  conv_lhs => rw [show migrate (migrate db) =
    migrateWith prodMigrations LATEST_SCHEMA_VERSION (migrate db) from rfl]
  unfold migrateWith
  rw [hpend]
  simp only [List.foldl]
  rw [ftsDdl_fixed _ hfts.1 hfts.2.1 hfts.2.2.1 hfts.2.2.2]
  rw [← huv]

/-! ## C4 — a pre-scan violation aborts before any extraction -/

theorem entryViolation_header (L : ZipLimits) {e e' : ZipEntry}
    (h : e.header = e'.header) : entryViolation L e = entryViolation L e' := by
  have hs : e.size = e'.size := congrArg ZipHeader.size h
  have hc : e.compressedSize = e'.compressedSize := congrArg ZipHeader.compressedSize h
  unfold entryViolation
  rw [hs, hc]

/-- The pre-scan loop reads only the entries' header metadata: two entry
lists with identical headers (whatever their decompressed bytes) scan
identically. -/
theorem preScanLoop_headers (L : ZipLimits) :
    ∀ (es es' : List ZipEntry), es.map ZipEntry.header = es'.map ZipEntry.header →
      ∀ tot, preScanLoop L es tot = preScanLoop L es' tot := by
  intro es
  induction es with
  | nil =>
    intro es' h tot
    rw [List.map_eq_nil_iff.mp h.symm]
  | cons e rest ih =>
    intro es' h tot
    cases es' with
    | nil => simp at h
    | cons e' rest' =>
      simp only [List.map_cons, List.cons.injEq] at h
      obtain ⟨hh, ht⟩ := h
      have hdir : e.isDirectory = e'.isDirectory := congrArg ZipHeader.isDirectory hh
      have hsz : e.size = e'.size := congrArg ZipHeader.size hh
      simp only [preScanLoop]
      rw [hdir, entryViolation_header L hh, hsz]
      cases e'.isDirectory with
      | true => simp only [if_true]; exact ih rest' ht tot
      | false =>
        simp only [Bool.false_eq_true, if_false]
        cases entryViolation L e' with
        | some err => rfl
        | none =>
          simp only []
          by_cases hto : tot + e'.size > L.maxTotalUncompressedSize
          · rw [if_pos hto, if_pos hto]
          · rw [if_neg hto, if_neg hto]
            exact ih rest' ht (tot + e'.size)

/-- zipCheck (entry-count check plus pre-scan loop) depends only on the
headers. -/
theorem zipCheck_headers (L : ZipLimits) {es es' : List ZipEntry}
    (h : es'.map ZipEntry.header = es.map ZipEntry.header) :
    zipCheck L es' = zipCheck L es := by
  have hlen : es'.length = es.length := by
    rw [← List.length_map es' ZipEntry.header, h, List.length_map]
  unfold zipCheck
  rw [hlen]
  by_cases hn : es.length > L.maxEntries
  · rw [if_pos hn, if_pos hn]
  · rw [if_neg hn, if_neg hn]
    exact preScanLoop_headers L es' es h 0

/-- The error path of a ZIP import whose pre-scan rejects: the run is
opened, the parent artifact stored, and the error is re-raised after the
run is finalized as failed. -/
theorem importFileHeadless_zip_err_eq
    (L : ZipLimits) (provider : String) (file : ImportFile) (st : Vault)
    (entries : List ZipEntry) (err : ImpError)
    (hz : endsWithStr (lowerStr (basename file.filename)) ".zip" = true)
    (hparse : file.zipParse = .ok entries)
    (hcheck : zipCheck L entries = some err) :
    importFileHeadless L provider file st
      = (.error err,
         finalizeIngestionRun st.nextRunId "failed" (some (errMessage err))
           (storeRawArtifact st.nextRunId provider "zip" (basename file.filename)
             file.content none none
             (createIngestionRun provider
               (some ("Import: " ++ basename file.filename)) st).2).2) := by
  simp only [importFileHeadless]
  rw [hz]
  simp only [if_true, importBody]
  rw [hparse]
  dsimp only
  rw [hcheck]
  rfl

/-- The updated run row keeps its id. -/
theorem finalize_upd_id (rid : Nat) (status : String) (e : Option String) (r : RunRow) :
    (if r.id = rid then { r with status := status, error_message := e } else r).id = r.id := by
  by_cases h : r.id = rid <;> simp [h]

/-- C4: when the pre-scan (entry count, per-entry size, ratio, running
total — all read from header metadata, never from decompressed bytes)
detects a violation, importFileHeadless re-raises that error having
extracted nothing: threads and messages are untouched, the only artifact
row/file that may have been added is the parent (no child artifacts), the
fresh run is finalized as 'failed', and the whole check is a function of
the archive's headers alone. -/
theorem importFileHeadless_prescan_atomic
    (L : ZipLimits) (provider : String) (file : ImportFile) (st : Vault)
    (entries : List ZipEntry) (err : ImpError)
    (hz : endsWithStr (lowerStr (basename file.filename)) ".zip" = true)
    (hparse : file.zipParse = .ok entries)
    (hcheck : zipCheck L entries = some err)
    (hfresh : ∀ r ∈ st.runs, r.id ≠ st.nextRunId) :
    (importFileHeadless L provider file st).1 = .error err ∧
    (importFileHeadless L provider file st).2.threads = st.threads ∧
    (importFileHeadless L provider file st).2.messages = st.messages ∧
    (∀ a ∈ (importFileHeadless L provider file st).2.artifacts,
        a ∈ st.artifacts ∨ (a.parent_artifact_id = none ∧ a.sha256 = sha256 file.content)) ∧
    (∀ f ∈ (importFileHeadless L provider file st).2.files,
        f ∈ st.files ∨ (f.1 = storedPathFor file.content (basename file.filename) ∧
                        f.2 = file.content)) ∧
    (((importFileHeadless L provider file st).2.runs.filter
        (fun r => r.id = st.nextRunId)).map (fun r => r.status)) = ["failed"] ∧
    (∀ entries' : List ZipEntry,
        entries'.map ZipEntry.header = entries.map ZipEntry.header →
        zipCheck L entries' = zipCheck L entries) := by
  have hbody := importFileHeadless_zip_err_eq L provider file st entries err hz hparse hcheck
  set lbl := some ("Import: " ++ basename file.filename) with hlbl
  have hcr := createRun_spec provider lbl st
  set stA := (createIngestionRun provider lbl st).2 with hstA
  have hsf := store_frame st.nextRunId provider "zip" (basename file.filename)
    file.content none none stA
  have hsa := store_additions st.nextRunId provider "zip" (basename file.filename)
    file.content none none stA
  set stB := (storeRawArtifact st.nextRunId provider "zip" (basename file.filename)
    file.content none none stA).2 with hstB
  have hff := finalize_frame st.nextRunId "failed" (some (errMessage err)) stB
  refine ⟨by rw [hbody], ?_, ?_, ?_, ?_, ?_, ?_⟩
  · rw [hbody]
    rw [hff.1, hsf.2.1, hcr.2.2.2.1]
  · rw [hbody]
    rw [hff.2.1, hsf.2.2.1, hcr.2.2.2.2.1]
  · rw [hbody]
    intro a ha
    rw [hff.2.2.1] at ha
    rcases hsa.1 a ha with h | h
    · rw [hcr.2.2.2.2.2.1] at h
      exact Or.inl h
    · exact Or.inr h
  · rw [hbody]
    intro f hf
    rw [hff.2.2.2] at hf
    rcases hsa.2 f hf with h | h
    · rw [hcr.2.2.2.2.2.2] at h
      exact Or.inl h
    · exact Or.inr h
  · rw [hbody]
    show ((finalizeIngestionRun st.nextRunId "failed" (some (errMessage err)) stB).runs.filter
        (fun r => r.id = st.nextRunId)).map (fun r => r.status) = ["failed"]
    unfold finalizeIngestionRun
    have hruns : stB.runs = st.runs ++ [(createIngestionRun provider lbl st).1] := by
      rw [hsf.1, hcr.2.2.1]
    rw [hruns]
    rw [List.map_append, List.filter_append]
    have h1 : (st.runs.map (fun r =>
        if r.id = st.nextRunId then { r with status := "failed", error_message := some (errMessage err) } else r)).filter
        (fun r => r.id = st.nextRunId) = [] := by
      rw [List.filter_eq_nil_iff]
      intro x hx
      obtain ⟨r, hr, hxr⟩ := List.mem_map.mp hx
      have hid : x.id = r.id := by rw [← hxr]; exact finalize_upd_id _ _ _ r
      simp only [decide_eq_true_eq]
      rw [hid]
      exact hfresh r hr
    rw [h1]
    have hrunid : (createIngestionRun provider lbl st).1.id = st.nextRunId := hcr.1
    simp [hrunid]
  · intro es' h
    exact zipCheck_headers L h

/-- A ratio-bomb archive: one entry declaring uncompressed=200,
compressed=1 in its header. -/
def c4file : ImportFile :=
  { filename := "bomb.zip", content := .binary [80, 75, 9],
    zipParse := .ok [
      { entryName := "conversations.json", isDirectory := false, size := 200,
        compressedSize := 1, data := .binary [65] }] }

/-- Closed witness for C4 at the ratio-bomb archive and the empty vault. -/
theorem importFileHeadless_prescan_atomic_witness :
    (importFileHeadless defaultLimits "chatgpt" c4file {}).1 = .error .ratioExceeded ∧
    (importFileHeadless defaultLimits "chatgpt" c4file {}).2.threads = [] ∧
    (importFileHeadless defaultLimits "chatgpt" c4file {}).2.messages = [] ∧
    (((importFileHeadless defaultLimits "chatgpt" c4file {}).2.runs.filter
        (fun r => r.id = 1)).map (fun r => r.status)) = ["failed"] := by
  have h := importFileHeadless_prescan_atomic defaultLimits "chatgpt" c4file {}
    [{ entryName := "conversations.json", isDirectory := false, size := 200,
       compressedSize := 1, data := .binary [65] }] .ratioExceeded
    (by decide) rfl (by decide) (by simp)
  exact ⟨h.1, h.2.1.trans rfl, h.2.2.1.trans rfl, h.2.2.2.2.2.1⟩

/-! ## C2 — run atomicity fails for multi-entry ZIPs -/

/-- The run row opened for an import of `file` into `st`. -/
def openedRun (provider : String) (file : ImportFile) (st : Vault) : RunRow × Vault :=
  createIngestionRun provider (some ("Import: " ++ basename file.filename)) st

/-- The parent-artifact store call of a non-ZIP import. -/
def plainStore (provider : String) (file : ImportFile) (st : Vault) : StoreResult × Vault :=
  storeRawArtifact (openedRun provider file st).1.id provider "json"
    (basename file.filename) file.content none none (openedRun provider file st).2

/-- The error path of a non-ZIP import: the parser ran inside its
transaction and threw, so its own inserts rolled back; the run is
finalized as failed on the state as it was before the dispatch. -/
theorem importFileHeadless_plain_err_eq
    (L : ZipLimits) (provider : String) (file : ImportFile) (st : Vault) (err : ImpError)
    (hnz : endsWithStr (lowerStr (basename file.filename)) ".zip" = false)
    (hd : dispatchPlain provider (openedRun provider file st).1.id
        (plainStore provider file st).1.id file.content
        (plainStore provider file st).2 = .error err) :
    importFileHeadless L provider file st
      = (.error err,
         finalizeIngestionRun (openedRun provider file st).1.id "failed"
           (some (errMessage err)) (plainStore provider file st).2) := by
  have hd' : dispatchPlain provider
      (createIngestionRun provider (some ("Import: " ++ basename file.filename)) st).1.id
      (storeRawArtifact
        (createIngestionRun provider (some ("Import: " ++ basename file.filename)) st).1.id
        provider "json" (basename file.filename) file.content none none
        (createIngestionRun provider (some ("Import: " ++ basename file.filename)) st).2).1.id
      file.content
      (storeRawArtifact
        (createIngestionRun provider (some ("Import: " ++ basename file.filename)) st).1.id
        provider "json" (basename file.filename) file.content none none
        (createIngestionRun provider (some ("Import: " ++ basename file.filename)) st).2).2
      = .error err := hd
  simp only [importFileHeadless]
  rw [hnz]
  simp only [Bool.false_eq_true, if_false, importBody]
  rw [hd']
  rfl

/-- The success path of a non-ZIP import, stated the same way. -/
theorem importFileHeadless_plain_ok_eq
    (L : ZipLimits) (provider : String) (file : ImportFile) (st st3 : Vault)
    (hnz : endsWithStr (lowerStr (basename file.filename)) ".zip" = false)
    (hd : dispatchPlain provider (openedRun provider file st).1.id
        (plainStore provider file st).1.id file.content
        (plainStore provider file st).2 = .ok st3) :
    importFileHeadless L provider file st
      = (.ok { runId := (openedRun provider file st).1.id,
               artifactId := (plainStore provider file st).1.id },
         finalizeIngestionRun (openedRun provider file st).1.id "complete" none st3) := by
  have hd' : dispatchPlain provider
      (createIngestionRun provider (some ("Import: " ++ basename file.filename)) st).1.id
      (storeRawArtifact
        (createIngestionRun provider (some ("Import: " ++ basename file.filename)) st).1.id
        provider "json" (basename file.filename) file.content none none
        (createIngestionRun provider (some ("Import: " ++ basename file.filename)) st).2).1.id
      file.content
      (storeRawArtifact
        (createIngestionRun provider (some ("Import: " ++ basename file.filename)) st).1.id
        provider "json" (basename file.filename) file.content none none
        (createIngestionRun provider (some ("Import: " ++ basename file.filename)) st).2).2
      = .ok st3 := hd
  simp only [importFileHeadless]
  rw [hnz]
  simp only [Bool.false_eq_true, if_false, importBody]
  rw [hd']
  rfl

/-- C2 amended, provable part: for a non-ZIP import that fails, the failed
run has zero thread rows and zero message rows (the single parser
invocation is transactional). The original claim's extension to ZIP
archives with multiple parseable entries is refuted by the
counterexample theorem. -/
theorem failed_nonzip_run_has_no_rows
    (L : ZipLimits) (provider : String) (file : ImportFile) (st : Vault) (err : ImpError)
    (hnz : endsWithStr (lowerStr (basename file.filename)) ".zip" = false)
    (hthreads : ∀ t ∈ st.threads, t.ingestion_run_id ≠ st.nextRunId)
    (hmessages : ∀ m ∈ st.messages, m.ingestion_run_id ≠ st.nextRunId)
    (herr : (importFileHeadless L provider file st).1 = .error err) :
    ((importFileHeadless L provider file st).2.threads.filter
        (fun t => t.ingestion_run_id = st.nextRunId)).length = 0 ∧
    ((importFileHeadless L provider file st).2.messages.filter
        (fun m => m.ingestion_run_id = st.nextRunId)).length = 0 := by
  have hrid : (openedRun provider file st).1.id = st.nextRunId := rfl
  have hcr := createRun_spec provider (some ("Import: " ++ basename file.filename)) st
  have hsf := store_frame (openedRun provider file st).1.id provider "json"
    (basename file.filename) file.content none none (openedRun provider file st).2
  cases hd : dispatchPlain provider (openedRun provider file st).1.id
      (plainStore provider file st).1.id file.content (plainStore provider file st).2 with
  | ok st3 =>
    exfalso
    rw [importFileHeadless_plain_ok_eq L provider file st st3 hnz hd] at herr
    exact absurd herr (by simp)
  | error err' =>
    rw [importFileHeadless_plain_err_eq L provider file st err' hnz hd]
    have hff := finalize_frame (openedRun provider file st).1.id "failed"
      (some (errMessage err')) (plainStore provider file st).2
    constructor
    · rw [hff.1]
      rw [show (plainStore provider file st).2.threads
          = (openedRun provider file st).2.threads from hsf.2.1]
      rw [show (openedRun provider file st).2.threads = st.threads from hcr.2.2.2.1]
      rw [List.length_eq_zero, List.filter_eq_nil_iff]
      intro t ht
      simpa using hthreads t ht
    · rw [hff.2.1]
      rw [show (plainStore provider file st).2.messages
          = (openedRun provider file st).2.messages from hsf.2.2.1]
      rw [show (openedRun provider file st).2.messages = st.messages from hcr.2.2.2.2.1]
      rw [List.length_eq_zero, List.filter_eq_nil_iff]
      intro m hm
      simpa using hmessages m hm

/-- A Claude conversation with one message, for the C2 counterexample. -/
def c2thread : ClThread :=
  { uuid := some "u1", name := some "T", created_at := none,
    chat_messages := some [{ uuid := some "m1", sender := some "human",
                             text := some "hello", created_at := none }] }

/-- A Claude ZIP with two parseable entries: a.json parses (one thread, one
message), b.json is malformed JSON. -/
def c2zip : ImportFile :=
  { filename := "claude.zip", content := .binary [1],
    zipParse := .ok [
      { entryName := "a.json", isDirectory := false, size := 10, compressedSize := 10,
        data := .claudeArr [c2thread] },
      { entryName := "b.json", isDirectory := false, size := 10, compressedSize := 10,
        data := .binary [123] }] }

/-- C2 counterexample: importing this two-entry Claude ZIP fails (the
second entry's JSON.parse throws) and the run is finalized 'failed', yet
one thread row and one message row carry that run's ingestion_run_id —
entry a.json's transaction had already committed. The claim's count-zero
property is false for failed runs of multi-entry ZIP imports. -/
theorem importFileHeadless_multi_entry_counterexample :
    (importFileHeadless defaultLimits "claude" c2zip {}).1
        = .error (.parseJsonFailed "claude") ∧
    ((importFileHeadless defaultLimits "claude" c2zip {}).2.runs.map
        (fun r => (r.id, r.status))) = [(1, "failed")] ∧
    ((importFileHeadless defaultLimits "claude" c2zip {}).2.threads.filter
        (fun t => t.ingestion_run_id = 1)).length = 1 ∧
    ((importFileHeadless defaultLimits "claude" c2zip {}).2.messages.filter
        (fun m => m.ingestion_run_id = 1)).length = 1 := by
  refine ⟨?_, ?_, ?_, ?_⟩ <;> decide

/-- Closed witness for the amended C2 at a failing non-ZIP Claude import. -/
theorem failed_nonzip_run_has_no_rows_witness :
    ((importFileHeadless defaultLimits "claude"
        { filename := "export.json", content := .binary [33],
          zipParse := .error "not a zip" } {}).2.threads.filter
        (fun t => t.ingestion_run_id = 1)).length = 0 ∧
    ((importFileHeadless defaultLimits "claude"
        { filename := "export.json", content := .binary [33],
          zipParse := .error "not a zip" } {}).2.messages.filter
        (fun m => m.ingestion_run_id = 1)).length = 0 :=
  failed_nonzip_run_has_no_rows defaultLimits "claude"
    { filename := "export.json", content := .binary [33], zipParse := .error "not a zip" }
    {} (.parseJsonFailed "claude") (by decide) (by simp) (by simp) (by decide)

/-! ## C7 — which ChatGPT mapping nodes become message rows -/

/-- The provider-visible projection of a message row: raw content, stored
timestamp, provider message id, role, parent provider message id. -/
def cgProj (m : MessageRow) : String × Option Int × Option String × String × Option String :=
  (m.content, m.timestamp, m.provider_message_id, m.role, m.parent_provider_message_id)

/-- What one mapping entry should contribute, per the (amended) claim: only
nodes with a message, with content, of content_type "text" yield a row;
its content is the parts joined by newline; its timestamp is
floor(create_time * 1000) when create_time is present and nonzero, else
null. -/
def cgExpectedEntry (e : String × CgNode) :
    Option (String × Option Int × Option String × String × Option String) :=
  match e.2.message with
  | none => none
  | some m =>
    match m.content with
    | none => none
    | some c =>
      if c.content_type = "text" then
        some (String.intercalate "\n" c.parts, jsTsQ m.create_time, some e.1,
          m.authorRole, jsOrNullStr e.2.parent)
      else none

/-- Expected rows of one conversation. -/
def cgExpected (t : CgThread) :
    List (String × Option Int × Option String × String × Option String) :=
  (t.mapping.getD []).filterMap cgExpectedEntry

theorem cgStep_fold_proj (runId aid tid : Nat) :
    ∀ (entries : List (String × CgNode)) (st : Vault) (pos : Nat),
      ((entries.foldl (cgStep runId aid tid) (st, pos)).1).messages.map cgProj
        = st.messages.map cgProj ++ entries.filterMap cgExpectedEntry := by
  intro entries
  induction entries with
  | nil => intro st pos; simp
  | cons e rest ih =>
    intro st pos
    rw [List.foldl_cons, List.filterMap_cons]
    show ((rest.foldl (cgStep runId aid tid) (cgStep runId aid tid (st, pos) e)).1).messages.map
        cgProj = _
    cases hm : e.2.message with
    | none =>
      rw [show cgStep runId aid tid (st, pos) e = (st, pos) by simp [cgStep, hm]]
      rw [show cgExpectedEntry e = none by simp [cgExpectedEntry, hm]]
      exact ih st pos
    | some m =>
      cases hc : m.content with
      | none =>
        rw [show cgStep runId aid tid (st, pos) e = (st, pos) by simp [cgStep, hm, hc]]
        rw [show cgExpectedEntry e = none by simp [cgExpectedEntry, hm, hc]]
        exact ih st pos
      | some c =>
        by_cases ht : c.content_type = "text"
        · have hstep : cgStep runId aid tid (st, pos) e
              = (insertMessage st
                  { id := 0, thread_id := tid, provider := "chatgpt",
                    provider_message_id := some e.1, role := m.authorRole,
                    content := String.intercalate "\n" c.parts,
                    content_plain := normalizeMd (String.intercalate "\n" c.parts),
                    timestamp := jsTsQ m.create_time, position := pos,
                    parent_provider_message_id := jsOrNullStr e.2.parent,
                    content_hash := sha256Str (String.intercalate "\n" c.parts),
                    raw_artifact_id := aid, ingestion_run_id := runId }, pos + 1) := by
            simp [cgStep, hm, hc, ht]
          have hexp : cgExpectedEntry e
              = some (String.intercalate "\n" c.parts, jsTsQ m.create_time, some e.1,
                  m.authorRole, jsOrNullStr e.2.parent) := by
            simp [cgExpectedEntry, hm, hc, ht]
          rw [hstep, hexp]
          rw [ih _ (pos + 1)]
          simp [insertMessage, cgProj]
        · rw [show cgStep runId aid tid (st, pos) e = (st, pos) by simp [cgStep, hm, hc, ht]]
          rw [show cgExpectedEntry e = none by simp [cgExpectedEntry, hm, hc, ht]]
          exact ih st pos

theorem insertCgThread_proj (runId aid : Nat) (st : Vault) (t : CgThread) :
    (insertCgThread runId aid st t).messages.map cgProj
      = st.messages.map cgProj ++ cgExpected t := by
  unfold insertCgThread cgExpected
  cases hmap : t.mapping with
  | none => simp [insertThread]
  | some entries =>
    rw [cgStep_fold_proj]
    simp [insertThread]

theorem cgFold_proj (runId aid : Nat) :
    ∀ (ts : List CgThread) (st : Vault),
      ((ts.foldl (insertCgThread runId aid) st).messages.map cgProj)
        = st.messages.map cgProj ++ (ts.map cgExpected).flatten := by
  intro ts
  induction ts with
  | nil => intro st; simp
  | cons t rest ih =>
    intro st
    rw [List.foldl_cons, ih, insertCgThread_proj]
    simp

/-- C7 amended: importChatGPT imports exactly the mapping nodes whose
message.content.content_type is "text" (nodes with another type, or
without message or content, yield no row); each imported row's raw content
is content.parts joined with a newline; its stored timestamp is
floor(create_time * 1000) when create_time is present and NONZERO, and
null otherwise — in particular a create_time of 0 is stored as null, which
is where the claim as written fails. -/
theorem importChatGPT_imports_exactly_text_nodes
    (runId aid : Nat) (ts : List CgThread) (st : Vault) :
    (importChatGPT runId aid (.chatgptArr ts) st).map
        (fun st' => st'.messages.map cgProj)
      = .ok (st.messages.map cgProj ++ (ts.map cgExpected).flatten) := by
  show Except.ok ((ts.foldl (insertCgThread runId aid) st).messages.map cgProj) = _
  rw [cgFold_proj]

/-- C7 counterexample content and message: a text node whose create_time
is present and equal to 0 (the epoch). -/
def c7content : CgContent := { content_type := "text", parts := ["hi", "there"] }

def c7msg : CgMessage :=
  { authorRole := "user", content := some c7content, create_time := some 0 }

def c7node : CgNode := { message := some c7msg, parent := none }

def c7thread : CgThread :=
  { id := some "t", title := some "T", create_time := none,
    mapping := some [("n1", c7node)] }

/-- C7 counterexample: the node is a text node and its create_time is
present (= 0 seconds), so the claim requires the stored timestamp to be
create_time * 1000 = 0; the importer stores null instead (`create_time ?`
is falsy at 0). The content/selection parts hold: exactly one row, with
the parts joined by a newline. -/
theorem importChatGPT_zero_create_time_counterexample :
    (c7node.message.map (fun m => m.create_time)) = some (some 0) ∧
    (importChatGPT 1 1 (.chatgptArr [c7thread]) {}).map
        (fun st => st.messages.map (fun m => (m.content, m.timestamp)))
      = .ok [("hi\nthere", none)] := by
  refine ⟨rfl, ?_⟩
  decide

/-! ## C10 — dedup does not suppress parsing -/

/-- Messages a Claude conversation contributes. -/
def clMsgCount (t : ClThread) : Nat := (t.chat_messages.getD []).length

/-- Messages a Claude export contributes in total. -/
def clTotal (ts : List ClThread) : Nat := (ts.map clMsgCount).sum

theorem clStep_fold_frame (runId aid tid : Nat) :
    ∀ (msgs : List ClMessage) (st : Vault) (pos : Nat),
      ((msgs.foldl (clStep runId aid tid) (st, pos)).1).threads = st.threads ∧
      ((msgs.foldl (clStep runId aid tid) (st, pos)).1).messages.length
        = st.messages.length + msgs.length ∧
      ((msgs.foldl (clStep runId aid tid) (st, pos)).1).artifacts = st.artifacts ∧
      ((msgs.foldl (clStep runId aid tid) (st, pos)).1).files = st.files ∧
      ((msgs.foldl (clStep runId aid tid) (st, pos)).1).runs = st.runs ∧
      ((msgs.foldl (clStep runId aid tid) (st, pos)).1).nextRunId = st.nextRunId ∧
      ((msgs.foldl (clStep runId aid tid) (st, pos)).1).nextArtifactId = st.nextArtifactId := by
  intro msgs
  induction msgs with
  | nil => intro st pos; exact ⟨rfl, rfl, rfl, rfl, rfl, rfl, rfl⟩
  | cons m rest ih =>
    intro st pos
    rw [List.foldl_cons]
    have h := ih (clStep runId aid tid (st, pos) m).1 (clStep runId aid tid (st, pos) m).2
    have hstep : (clStep runId aid tid (st, pos) m).1.threads = st.threads ∧
        (clStep runId aid tid (st, pos) m).1.messages.length = st.messages.length + 1 ∧
        (clStep runId aid tid (st, pos) m).1.artifacts = st.artifacts ∧
        (clStep runId aid tid (st, pos) m).1.files = st.files ∧
        (clStep runId aid tid (st, pos) m).1.runs = st.runs ∧
        (clStep runId aid tid (st, pos) m).1.nextRunId = st.nextRunId ∧
        (clStep runId aid tid (st, pos) m).1.nextArtifactId = st.nextArtifactId := by
      simp [clStep, insertMessage]
    refine ⟨?_, ?_, ?_, ?_, ?_, ?_, ?_⟩
    · rw [h.1, hstep.1]
    · rw [h.2.1, hstep.2.1]; simp only [List.length_cons]; omega
    · rw [h.2.2.1, hstep.2.2.1]
    · rw [h.2.2.2.1, hstep.2.2.2.1]
    · rw [h.2.2.2.2.1, hstep.2.2.2.2.1]
    · rw [h.2.2.2.2.2.1, hstep.2.2.2.2.2.1]
    · rw [h.2.2.2.2.2.2, hstep.2.2.2.2.2.2]

theorem insertClThread_frame (runId aid : Nat) (st : Vault) (t : ClThread) :
    (insertClThread runId aid st t).threads.length = st.threads.length + 1 ∧
    (insertClThread runId aid st t).messages.length = st.messages.length + clMsgCount t ∧
    (insertClThread runId aid st t).artifacts = st.artifacts ∧
    (insertClThread runId aid st t).files = st.files ∧
    (insertClThread runId aid st t).runs = st.runs ∧
    (insertClThread runId aid st t).nextRunId = st.nextRunId ∧
    (insertClThread runId aid st t).nextArtifactId = st.nextArtifactId := by
  unfold insertClThread clMsgCount
  cases hcm : t.chat_messages with
  | none => simp [insertThread]
  | some msgs =>
    have h := clStep_fold_frame runId aid
      (insertThread st "claude" (jsOrNullStr t.uuid) (jsOrStr t.name "Untitled Conversation")
        t.created_at aid runId).1
      msgs
      (insertThread st "claude" (jsOrNullStr t.uuid) (jsOrStr t.name "Untitled Conversation")
        t.created_at aid runId).2 0
    refine ⟨?_, ?_, ?_, ?_, ?_, ?_, ?_⟩
    · rw [h.1]; simp [insertThread]
    · rw [h.2.1]; simp [insertThread]
    · rw [h.2.2.1]; simp [insertThread]
    · rw [h.2.2.2.1]; simp [insertThread]
    · rw [h.2.2.2.2.1]; simp [insertThread]
    · rw [h.2.2.2.2.2.1]; simp [insertThread]
    · rw [h.2.2.2.2.2.2]; simp [insertThread]

theorem clFold_frame (runId aid : Nat) :
    ∀ (ts : List ClThread) (st : Vault),
      ((ts.foldl (insertClThread runId aid) st).threads.length
        = st.threads.length + ts.length) ∧
      ((ts.foldl (insertClThread runId aid) st).messages.length
        = st.messages.length + clTotal ts) ∧
      ((ts.foldl (insertClThread runId aid) st).artifacts = st.artifacts) ∧
      ((ts.foldl (insertClThread runId aid) st).files = st.files) ∧
      ((ts.foldl (insertClThread runId aid) st).runs = st.runs) ∧
      ((ts.foldl (insertClThread runId aid) st).nextRunId = st.nextRunId) ∧
      ((ts.foldl (insertClThread runId aid) st).nextArtifactId = st.nextArtifactId) := by
  intro ts
  induction ts with
  | nil => intro st; simp [clTotal]
  | cons t rest ih =>
    intro st
    rw [List.foldl_cons]
    have h := ih (insertClThread runId aid st t)
    have hstep := insertClThread_frame runId aid st t
    have htot : clTotal (t :: rest) = clMsgCount t + clTotal rest := by
      simp [clTotal]
    refine ⟨?_, ?_, ?_, ?_, ?_, ?_, ?_⟩
    · rw [h.1, hstep.1]; simp only [List.length_cons]; omega
    · rw [h.2.1, hstep.2.1, htot]; omega
    · rw [h.2.2.1, hstep.2.2.1]
    · rw [h.2.2.2.1, hstep.2.2.2.1]
    · rw [h.2.2.2.2.1, hstep.2.2.2.2.1]
    · rw [h.2.2.2.2.2.1, hstep.2.2.2.2.2.1]
    · rw [h.2.2.2.2.2.2, hstep.2.2.2.2.2.2]

/-- A non-ZIP Claude export file with the given conversations. -/
def claudeFile (ts : List ClThread) : ImportFile :=
  { filename := "export.json", content := .claudeArr ts, zipParse := .error "not a zip" }

/-- C10 zip fixture: a Claude ZIP with one parseable entry. -/
def c10thread : ClThread :=
  { uuid := some "u", name := some "Z", created_at := none,
    chat_messages := some [{ uuid := none, sender := some "human",
                             text := some "zip hello", created_at := none }] }

def c10zip : ImportFile :=
  { filename := "claude.zip", content := .binary [7],
    zipParse := .ok [
      { entryName := "a.json", isDirectory := false, size := 9, compressedSize := 9,
        data := .claudeArr [c10thread] }] }

/-- C10: artifact deduplication does not suppress parsing. Importing the
same Claude export twice (no wipe in between): the first run inserts the
parent artifact and ts.length threads / clTotal ts messages; the second
run's parent store is deduplicated (same artifact id 1, one row, one file
throughout) yet the parser runs again, so thread and message rows double.
The same holds through the ZIP extraction loop, shown on a one-entry
Claude archive: the child artifact is deduplicated on re-import while
threads and messages double. -/
theorem import_twice_duplicates_rows (ts : List ClThread) :
    (importFileHeadless defaultLimits "claude" (claudeFile ts) {}).1
        = .ok { runId := 1, artifactId := 1 } ∧
    (importFileHeadless defaultLimits "claude" (claudeFile ts)
        ((importFileHeadless defaultLimits "claude" (claudeFile ts) {}).2)).1
        = .ok { runId := 2, artifactId := 1 } ∧
    (importFileHeadless defaultLimits "claude" (claudeFile ts) {}).2.artifacts.length = 1 ∧
    (importFileHeadless defaultLimits "claude" (claudeFile ts)
        ((importFileHeadless defaultLimits "claude" (claudeFile ts) {}).2)).2.artifacts.length
      = 1 ∧
    (importFileHeadless defaultLimits "claude" (claudeFile ts) {}).2.files.length = 1 ∧
    (importFileHeadless defaultLimits "claude" (claudeFile ts)
        ((importFileHeadless defaultLimits "claude" (claudeFile ts) {}).2)).2.files.length = 1 ∧
    (importFileHeadless defaultLimits "claude" (claudeFile ts) {}).2.threads.length
      = ts.length ∧
    (importFileHeadless defaultLimits "claude" (claudeFile ts)
        ((importFileHeadless defaultLimits "claude" (claudeFile ts) {}).2)).2.threads.length
      = 2 * ts.length ∧
    (importFileHeadless defaultLimits "claude" (claudeFile ts) {}).2.messages.length
      = clTotal ts ∧
    (importFileHeadless defaultLimits "claude" (claudeFile ts)
        ((importFileHeadless defaultLimits "claude" (claudeFile ts) {}).2)).2.messages.length
      = 2 * clTotal ts ∧
    ((importFileHeadless defaultLimits "claude" c10zip
        ((importFileHeadless defaultLimits "claude" c10zip {}).2)).1
      = .ok { runId := 2, artifactId := 1 } ∧
     ((importFileHeadless defaultLimits "claude" c10zip
        ((importFileHeadless defaultLimits "claude" c10zip {}).2)).2.runs.map
        (fun r => r.status)) = ["complete", "complete"] ∧
     (importFileHeadless defaultLimits "claude" c10zip
        ((importFileHeadless defaultLimits "claude" c10zip {}).2)).2.artifacts.length = 2 ∧
     (importFileHeadless defaultLimits "claude" c10zip
        ((importFileHeadless defaultLimits "claude" c10zip {}).2)).2.files.length = 2 ∧
     (importFileHeadless defaultLimits "claude" c10zip
        ((importFileHeadless defaultLimits "claude" c10zip {}).2)).2.threads.length = 2 ∧
     (importFileHeadless defaultLimits "claude" c10zip
        ((importFileHeadless defaultLimits "claude" c10zip {}).2)).2.messages.length = 2) := by
  have hnz : endsWithStr (lowerStr (basename (claudeFile ts).filename)) ".zip" = false := rfl
  have hd1 : dispatchPlain "claude" (openedRun "claude" (claudeFile ts) {}).1.id
      (plainStore "claude" (claudeFile ts) {}).1.id (claudeFile ts).content
      (plainStore "claude" (claudeFile ts) {}).2
      = .ok (ts.foldl (insertClThread 1 1) (plainStore "claude" (claudeFile ts) {}).2) := rfl
  have hr1 := importFileHeadless_plain_ok_eq defaultLimits "claude" (claudeFile ts) {} _ hnz hd1
  have hf1 := clFold_frame 1 1 ts (plainStore "claude" (claudeFile ts) {}).2
  set st2 := (importFileHeadless defaultLimits "claude" (claudeFile ts) {}).2 with hst2
  have hst2eq : st2 = finalizeIngestionRun (openedRun "claude" (claudeFile ts) {}).1.id
      "complete" none (ts.foldl (insertClThread 1 1) (plainStore "claude" (claudeFile ts) {}).2) := by
    rw [hst2, hr1]
  have hb0th : (plainStore "claude" (claudeFile ts) ({} : Vault)).2.threads.length = 0 := rfl
  have hb0ms : (plainStore "claude" (claudeFile ts) ({} : Vault)).2.messages.length = 0 := rfl
  have hth2 : st2.threads.length = ts.length := by
    rw [hst2eq, (finalize_frame _ _ _ _).1, hf1.1, hb0th]
    omega
  have hms2 : st2.messages.length = clTotal ts := by
    rw [hst2eq, (finalize_frame _ _ _ _).2.1, hf1.2.1, hb0ms]
    omega
  have hart2 : st2.artifacts
      = [newRowFor 1 "claude" "json" "export.json" (.claudeArr ts) none none {}] := by
    rw [hst2eq, (finalize_frame _ _ _ _).2.2.1, hf1.2.2.1]
    rfl
  have hfiles2 : st2.files.length = 1 := by
    rw [hst2eq, (finalize_frame _ _ _ _).2.2.2, hf1.2.2.2.1]
    rfl
  have hnr2 : st2.nextRunId = 2 := by
    rw [hst2eq]
    show (ts.foldl (insertClThread 1 1) (plainStore "claude" (claudeFile ts) {}).2).nextRunId = 2
    rw [hf1.2.2.2.2.2.1]
    rfl
  have hfind2 : (openedRun "claude" (claudeFile ts) st2).2.artifacts.find?
      (fun a => a.sha256 = sha256 (claudeFile ts).content)
      = some (newRowFor 1 "claude" "json" "export.json" (.claudeArr ts) none none {}) := by
    show st2.artifacts.find? _ = _
    rw [hart2]
    exact List.find?_cons_of_pos _ (by simp [newRowFor, claudeFile])
  have hstore2 : plainStore "claude" (claudeFile ts) st2
      = ({ id := 1, skipped := true }, (openedRun "claude" (claudeFile ts) st2).2) :=
    storeRawArtifact_stale_row_returns_existing
      (openedRun "claude" (claudeFile ts) st2).1.id "claude" "json"
      (basename (claudeFile ts).filename) (claudeFile ts).content none none
      (openedRun "claude" (claudeFile ts) st2).2 _ hfind2
  have hb2th : (plainStore "claude" (claudeFile ts) st2).2.threads = st2.threads := by
    rw [hstore2]
    rfl
  have hb2ms : (plainStore "claude" (claudeFile ts) st2).2.messages = st2.messages := by
    rw [hstore2]
    rfl
  have hb2art : (plainStore "claude" (claudeFile ts) st2).2.artifacts = st2.artifacts := by
    rw [hstore2]
    rfl
  have hb2files : (plainStore "claude" (claudeFile ts) st2).2.files = st2.files := by
    rw [hstore2]
    rfl
  have hd2 : dispatchPlain "claude" (openedRun "claude" (claudeFile ts) st2).1.id
      (plainStore "claude" (claudeFile ts) st2).1.id (claudeFile ts).content
      (plainStore "claude" (claudeFile ts) st2).2
      = .ok (ts.foldl (insertClThread (openedRun "claude" (claudeFile ts) st2).1.id
          (plainStore "claude" (claudeFile ts) st2).1.id)
          (plainStore "claude" (claudeFile ts) st2).2) := rfl
  have hr2 := importFileHeadless_plain_ok_eq defaultLimits "claude" (claudeFile ts) st2 _ hnz hd2
  have hf2 := clFold_frame (openedRun "claude" (claudeFile ts) st2).1.id
    (plainStore "claude" (claudeFile ts) st2).1.id ts
    (plainStore "claude" (claudeFile ts) st2).2
  have hrunid2 : (openedRun "claude" (claudeFile ts) st2).1.id = 2 := by
    show st2.nextRunId = 2
    exact hnr2
  have hpid2 : (plainStore "claude" (claudeFile ts) st2).1.id = 1 := by
    rw [hstore2]
  refine ⟨?_, ?_, ?_, ?_, ?_, ?_, ?_, ?_, ?_, ?_, ?_⟩
  · rw [hr1]
    rfl
  · rw [hr2, hrunid2, hpid2]
  · rw [hst2] at hart2
    rw [hart2]
    rfl
  · rw [hr2, (finalize_frame _ _ _ _).2.2.1, hf2.2.2.1, hb2art, hart2]
    rfl
  · rw [hst2] at hfiles2
    exact hfiles2
  · rw [hr2, (finalize_frame _ _ _ _).2.2.2, hf2.2.2.2.1, hb2files]
    exact hfiles2
  · rw [hst2] at hth2
    exact hth2
  · rw [hr2, (finalize_frame _ _ _ _).1, hf2.1, hb2th, hth2]
    omega
  · rw [hst2] at hms2
    exact hms2
  · rw [hr2, (finalize_frame _ _ _ _).2.1, hf2.2.1, hb2ms, hms2]
    omega
  · refine ⟨?_, ?_, ?_, ?_, ?_, ?_⟩ <;> decide
